import Mathlib

set_option maxRecDepth 16000

/-!
# Verification of the EmeraBooks bank-statement extraction pipeline

Shallow embedding of `backend/excel_processor.py` (class `UAEBankExcelProcessor`).
Python strings are modelled as `List Char` (ASCII semantics for case mapping,
whitespace and `\d`/`\w` character classes), Python floats as exact rationals,
spreadsheet cell values as the inductive `CellVal`, and JSON values returned by
the external classifier as the inductive `Json`.  All definitions are
executable; total functions model the fact that the corresponding Python code
paths do not raise.
-/

/-- Python `str.strip` whitespace class (ASCII part of `str.isspace`). -/
def isPySpace (c : Char) : Bool :=
  c = ' ' || c = '\t' || c = '\n' || c = '\r' || c = '\x0b' || c = '\x0c'

/-- ASCII lower-casing of one character, as Python `str.lower` does on ASCII
(the code-point arithmetic of `Char.toLower`). -/
def pyLowerChar (c : Char) : Char :=
  if 65 ≤ c.toNat && c.toNat ≤ 90 then Char.ofNat (c.toNat + 32) else c

/-- ASCII upper-casing of one character, as Python `str.upper` does on ASCII
(the code-point arithmetic of `Char.toUpper`). -/
def pyUpperChar (c : Char) : Char :=
  if 97 ≤ c.toNat && c.toNat ≤ 122 then Char.ofNat (c.toNat - 32) else c

/-- ASCII letter test (`Char.isAlpha` over code points). -/
def pyIsAlpha (c : Char) : Bool :=
  (65 ≤ c.toNat && c.toNat ≤ 90) || (97 ≤ c.toNat && c.toNat ≤ 122)

/-- Python `str.lower` (ASCII). -/
def pyLower (s : List Char) : List Char := s.map pyLowerChar

/-- Python `str.upper` (ASCII). -/
def pyUpper (s : List Char) : List Char := s.map pyUpperChar

/-- Python `str.strip()`: remove leading and trailing whitespace. -/
def pyStrip (s : List Char) : List Char :=
  ((s.dropWhile isPySpace).reverse.dropWhile isPySpace).reverse

/-- One step of Python `str.title`: `prevAlpha` says whether the previous
character was alphabetic; alphabetic characters after a non-alphabetic one are
upper-cased, alphabetic characters after an alphabetic one are lower-cased. -/
def pyTitleGo : Bool → List Char → List Char
  | _, [] => []
  | prevAlpha, c :: t =>
    if pyIsAlpha c then
      (if prevAlpha then pyLowerChar c else pyUpperChar c) :: pyTitleGo true t
    else
      c :: pyTitleGo false t

/-- Python `str.title` (ASCII). -/
def pyTitle (s : List Char) : List Char := pyTitleGo false s

/-- `p` occurs at the start of `s` (helper for substring containment). -/
def hasLead : List Char → List Char → Bool
  | [], _ => true
  | _ :: _, [] => false
  | a :: p, b :: s => a = b && hasLead p s

/-- Python `p in s` substring containment. -/
def subIn (p : List Char) : List Char → Bool
  | [] => decide (p = [])
  | c :: t => hasLead p (c :: t) || subIn p t

/-- Python `any(k in s for k in kws)`. -/
def anySubIn (kws : List (List Char)) (s : List Char) : Bool :=
  kws.any (fun k => subIn k s)

/-- Split a character list at every occurrence of `c`
(the semantics of Python `re` groups separated by a literal, and of
`str.split(c)`). -/
def splitOnChar (c : Char) : List Char → List (List Char)
  | [] => [[]]
  | a :: t =>
    if a = c then [] :: splitOnChar c t
    else
      match splitOnChar c t with
      | [] => [[a]]
      | h :: r => (a :: h) :: r

/-- All characters are ASCII digits (the `\d` class of the source regexes). -/
def allDigits (s : List Char) : Bool := s.all Char.isDigit

/-- Python `int()` on a string of ASCII digits. -/
def natOfDigits (s : List Char) : Nat :=
  s.foldl (fun n c => 10 * n + (c.toNat - 48)) 0

/-- Python `str.zfill(2)`: left-pad with `'0'` to length two. -/
def zfill2 (s : List Char) : List Char :=
  if 2 ≤ s.length then s else List.replicate (2 - s.length) '0' ++ s

/-- Decimal digit character of `x % 10`. -/
def dch (x : Nat) : Char := Char.ofNat (48 + x % 10)

/-- Decimal digits of a natural number (at least one digit); the fuel
(`n + 1`) always exceeds the digit count. -/
def natDigitsGo : Nat → Nat → List Char
  | 0, _ => []
  | fuel + 1, n => if n < 10 then [dch n] else natDigitsGo fuel (n / 10) ++ [dch n]

def natDigits (n : Nat) : List Char := natDigitsGo (n + 1) n

/-- Decimal rendering of an integer, as Python `str` on `int`. -/
def intStr (n : Int) : List Char :=
  if n < 0 then '-' :: natDigits n.natAbs else natDigits n.natAbs

/-- `strftime('%Y-%m-%d')` for a `datetime` with year `y ≤ 9999`:
four zero-padded year digits, two month digits, two day digits. -/
def fmtISO (y m d : Nat) : List Char :=
  [dch (y / 1000), dch (y / 100), dch (y / 10), dch y, '-',
   dch (m / 10), dch m, '-', dch (d / 10), dch d]

/-! ## Cell values

`openpyxl` cell values as consumed by the pipeline: `none` (empty cell),
strings, integers, exact-decimal numbers (`dec m e` denotes `m / 10^e`,
rendered with `e` fractional digits as Python prints floats), and native
dates (`datetime`, rendered at midnight). -/

inductive CellVal where
  | none
  | str (s : List Char)
  | int (n : Int)
  | dec (m : Int) (e : Nat)
  | date (y m d : Nat)
deriving DecidableEq, Repr

/-- Decimal rendering of `m / 10^e` with exactly `e` fractional digits. -/
def decStr (m : Int) (e : Nat) : List Char :=
  if e = 0 then intStr m
  else
    let ds := natDigits m.natAbs
    let ds := if ds.length ≤ e then List.replicate (e + 1 - ds.length) '0' ++ ds else ds
    let sign : List Char := if m < 0 then ['-'] else []
    sign ++ ds.take (ds.length - e) ++ '.' :: ds.drop (ds.length - e)

/-- Python `str()` of a cell value. -/
def strOf : CellVal → List Char
  | .none => "None".data
  | .str s => s
  | .int n => intStr n
  | .dec m e => decStr m e
  | .date y m d => fmtISO y m d ++ " 00:00:00".data

/-- Python truthiness of a cell value. -/
def pyTruthy : CellVal → Bool
  | .none => false
  | .str s => !s.isEmpty
  | .int n => n ≠ 0
  | .dec m _ => m ≠ 0
  | .date _ _ _ => true

/-- `str(v or '')`: empty string for falsy values (used by the header scan). -/
def strOrEmpty (v : CellVal) : List Char :=
  if pyTruthy v then strOf v else []

/-! ## Date Resolver (`detect_date_format`, lines 601-645)

The current date (`datetime.now()`) is passed in explicitly as the `today`
argument.  Each regex alternative of the source is realised as a `try…`
parser; the anchored patterns `^(\d{1,2})/(\d{1,2})/(\d{2})$` etc. are
decided by splitting on the literal separator and checking the digit groups,
which is equivalent because `\d` matches no separator character. -/

/-- `^(\d{1,2})/(\d{1,2})/(\d{2})$` — US two-digit-year dates,
`month/day/yy`, year expanded to `20yy` when `yy < 50` else `19yy`. -/
def trySlash2 (ds : List Char) : Option (List Char) :=
  match splitOnChar '/' ds with
  | [mo, dy, yr] =>
    if allDigits mo && allDigits dy && allDigits yr &&
        decide (1 ≤ mo.length) && decide (mo.length ≤ 2) &&
        decide (1 ≤ dy.length) && decide (dy.length ≤ 2) &&
        decide (yr.length = 2) then
      let full := if natOfDigits yr < 50 then '2' :: '0' :: yr else '1' :: '9' :: yr
      some (full ++ '-' :: zfill2 mo ++ '-' :: zfill2 dy)
    else Option.none
  | _ => Option.none

/-- `^(\d{4})-(\d{1,2})-(\d{1,2})$` — ISO dates, zero-padded and returned. -/
def tryIso (ds : List Char) : Option (List Char) :=
  match splitOnChar '-' ds with
  | [yr, mo, dy] =>
    if allDigits yr && allDigits mo && allDigits dy &&
        decide (yr.length = 4) &&
        decide (1 ≤ mo.length) && decide (mo.length ≤ 2) &&
        decide (1 ≤ dy.length) && decide (dy.length ≤ 2) then
      some (yr ++ '-' :: zfill2 mo ++ '-' :: zfill2 dy)
    else Option.none
  | _ => Option.none

/-- `^(\d{1,2})/(\d{1,2})/(\d{4})$` — four-digit-year dates, disambiguated by
value bounds and then by the currency hint. -/
def trySlash4 (ds cur : List Char) : Option (List Char) :=
  match splitOnChar '/' ds with
  | [a, b, yr] =>
    if allDigits a && allDigits b && allDigits yr &&
        decide (1 ≤ a.length) && decide (a.length ≤ 2) &&
        decide (1 ≤ b.length) && decide (b.length ≤ 2) &&
        decide (yr.length = 4) then
      if 12 < natOfDigits a then
        some (yr ++ '-' :: zfill2 b ++ '-' :: zfill2 a)
      else if 12 < natOfDigits b then
        some (yr ++ '-' :: zfill2 a ++ '-' :: zfill2 b)
      else if cur = "USD".data then
        some (yr ++ '-' :: zfill2 a ++ '-' :: zfill2 b)
      else
        some (yr ++ '-' :: zfill2 b ++ '-' :: zfill2 a)
    else Option.none
  | _ => Option.none

/-- `detect_date_format(date_string, currency)`; `today` stands for
`datetime.now().strftime('%Y-%m-%d')`.  Totality models the documented
never-raises contract. -/
def detectDateFormat (v : CellVal) (cur today : List Char) : List Char :=
  match v with
  | .date y m d => fmtISO y m d
  | _ =>
    let ds := pyStrip (strOf v)
    ((trySlash2 ds).orElse fun _ =>
      ((tryIso ds).orElse fun _ =>
        trySlash4 ds cur)).getD today

/-! ## Rule Classifier (`_is_ibft_reference`, `categorize_transaction`,
lines 166-339) -/

/-- The `\w` class of the source regexes (ASCII). -/
def isWordChar (c : Char) : Bool := c.isAlphanum || c = '_'

/-- Hex-digit class `[0-9A-F]` with `re.IGNORECASE`. -/
def isHexChar (c : Char) : Bool :=
  c.isDigit || ('A' ≤ c && c ≤ 'F') || ('a' ≤ c && c ≤ 'f')

/-- Does `\s*[-–]\s*\w{0,5}\s*$` match the whole of `t`?  The word run after
the dash must be at most five characters and only whitespace may follow it. -/
def dashRefAt (t : List Char) : Bool :=
  match t.dropWhile isPySpace with
  | d :: r =>
    (d = '-' || d = '–') &&
      (let t2 := r.dropWhile isPySpace
       let w := t2.takeWhile isWordChar
       decide (w.length ≤ 5) && (t2.drop w.length).all isPySpace)
  | [] => false

/-- `re.sub(r'\s*[-–]\s*\w{0,5}\s*$', '', s)`: drop the suffix starting at the
leftmost position where the pattern matches through to the end. -/
def stripDashRef : List Char → List Char
  | [] => []
  | c :: t => if dashRefAt (c :: t) then [] else c :: stripDashRef t

/-- `_is_ibft_reference`: after stripping a trailing `- <suffix>` marker, the
remainder must match `^[0-9A-F]{8,}$` (case-insensitive): at least eight
characters, every one a hex digit. -/
def isIbftReference (description : List Char) : Bool :=
  let clean := stripDashRef (pyStrip description)
  decide (8 ≤ clean.length) && clean.all isHexChar

/-- The compiled (but never invoked) `_ibft_ref_pattern` of lines 39-42:
`^[0-9a-f]{6,}[0-9a-f\-]*$|^[0-9]{3}[a-z][0-9a-f]{8,}` with `re.IGNORECASE`. -/
def ibftRefPatternMatches (s : List Char) : Bool :=
  let t := pyLower s
  let isHexL := fun c => c.isDigit || ('a' ≤ c && c ≤ 'f')
  (decide (6 ≤ t.length) && (t.take 6).all isHexL &&
      (t.drop 6).all (fun c => isHexL c || c = '-')) ||
    (match t with
     | d1 :: d2 :: d3 :: l :: rest =>
       d1.isDigit && d2.isDigit && d3.isDigit && ('a' ≤ l && l ≤ 'z') &&
         decide (8 ≤ rest.length) && (rest.take 8).all isHexL
     | _ => false)

/-- `re.match(r'^sq\s*\*\s*(.+)', desc_lower)`: group 1 after the `sq *`
marker.  `.` does not cross a newline; when everything after the star is
whitespace the engine backtracks to the last non-newline whitespace char. -/
def sqMatchLower (s : List Char) : Option (List Char) :=
  match s with
  | 's' :: 'q' :: rest =>
    match rest.dropWhile isPySpace with
    | '*' :: r2 =>
      let u := r2.dropWhile isPySpace
      if !u.isEmpty then some (u.takeWhile (fun c => c ≠ '\n'))
      else
        match r2.reverse.dropWhile (fun c => c = '\n') with
        | [] => Option.none
        | c :: _ => some [c]
    | _ => Option.none
  | _ => Option.none

/-- `self.categories['Internal Transfer']` … -/
def kwInternalTransfer : List (List Char) :=
  ["mobn transfer".data, "mobn".data, "internal transfer".data,
   "own account transfer".data, "self transfer".data, "ibft".data, "neft".data,
   "rtgs".data, "imps".data, "upi transfer".data, "between accounts".data,
   "acc transfer".data, "account transfer".data, "transfer from".data,
   "transfer to".data, "online transfer".data, "mobile transfer".data,
   "internet banking transfer".data, "e-transfer".data, "wire to self".data,
   "salary transfer own".data, "al ansari".data,
   "uae exchange transfer to self".data]

/-- `self.categories['Salary & Income']` -/
def kwSalaryIncome : List (List Char) :=
  ["salary".data, "payroll".data, "wages".data, "income".data,
   "direct deposit".data, "paycheck".data, "pay slip".data, "bonus".data,
   "commission".data, "stipend".data, "allowance".data, "reimbursement".data,
   "refund".data, "credit from".data, "deposit from".data, "payment from".data,
   "received from".data, "dividend".data, "interest credit".data,
   "profit share".data]

/-- `self.categories['Food & Beverage']` -/
def kwFoodBeverage : List (List Char) :=
  ["carrefour".data, "lulu".data, "spinneys".data, "choithrams".data,
   "union coop".data, "waitrose".data, "restaurant".data, "cafe".data,
   "kfc".data, "mcdonald".data, "pizza".data, "subway".data, "dominos".data,
   "starbucks".data, "costa".data, "dunkin".data, "burger".data, "food".data,
   "dining".data, "eat".data, "grocery".data, "supermarket".data,
   "hypermarket".data, "bakery".data, "deli".data, "bistro".data,
   "catering".data, "takeaway".data, "delivery".data, "zomato".data,
   "talabat".data, "deliveroo".data, "doordash".data, "grubhub".data,
   "uber eats".data, "postmates".data, "chipotle".data, "panera".data,
   "whole foods".data, "trader joe".data, "safeway".data, "kroger".data,
   "donuts".data, "coffee".data, "espresso".data, "bacio di latte".data,
   "butchery".data, "zinque".data, "ralphs".data, "albertsons".data,
   "vons".data, "pavilions".data, "publix".data, "wegmans".data,
   "harris teeter".data, "noon food".data, "kcal".data, "just eat".data,
   "hunger station".data, "marsool".data, "mrsool".data, "jahez".data,
   "tikka".data, "shawarma".data, "manoushe".data, "falafel".data,
   "hummus".data, "baqala".data, "chaat".data, "karak".data, "cafetera".data,
   "moongoat".data, "dutch bros".data, "peet's coffee".data,
   "peets coffee".data, "blue bottle".data, "instacart".data,
   "fresh direct".data, "imperfect foods".data, "misfit market".data,
   "chick-fil-a".data, "chickfila".data, "taco bell".data, "five guys".data,
   "shake shack".data, "in-n-out".data, "whataburger".data,
   "sonic drive".data, "dairy queen".data, "popeyes".data,
   "olive garden".data, "red lobster".data, "applebees".data, "chilis".data,
   "ihop".data, "dennys".data, "wingstop".data, "buffalo wild wings".data,
   "raising canes".data, "culvers".data]

/-- `self.categories['Transportation & Logistics']` -/
def kwTransport : List (List Char) :=
  ["adnoc".data, "eppco".data, "enoc".data, "petrol".data, "fuel".data,
   "gas".data, "gasoline".data, "taxi".data, "uber".data, "careem".data,
   "metro".data, "bus".data, "rta".data, "parking".data, "salik".data,
   "toll".data, "car wash".data, "transport".data, "emirates".data,
   "etihad".data, "flydubai".data, "air arabia".data, "airline".data,
   "flight".data, "airport".data, "chevron".data, "shell".data, "bp".data,
   "76".data, "exxon".data, "mobil".data, "lyft".data,
   "parking services".data, "toll roads".data, "valet".data, "bolt".data,
   "indrive".data, "yango".data, "aramex".data, "dhl".data, "fedex".data,
   "ups".data, "courier".data, "shipping".data, "freight".data]

/-- `self.categories['Retail & Shopping']` -/
def kwRetail : List (List Char) :=
  ["mall".data, "centrepoint".data, "max".data, "home centre".data,
   "ikea".data, "ace".data, "sharaf dg".data, "jumbo".data,
   "electronics".data, "clothing".data, "fashion".data, "shop".data,
   "store".data, "retail".data, "amazon".data, "noon".data, "souq".data,
   "namshi".data, "h&m".data, "zara".data, "nike".data, "adidas".data,
   "apple store".data, "samsung".data, "virgin".data, "uniqlo".data,
   "target".data, "walmart".data, "costco".data, "best buy".data,
   "macy".data, "nordstrom".data, "kohls".data, "tj maxx".data, "ross".data,
   "marshalls".data, "shein".data, "bosta".data]

/-- `self.categories['Healthcare']` -/
def kwHealthcare : List (List Char) :=
  ["hospital".data, "clinic".data, "pharmacy".data, "medical".data,
   "doctor".data, "health".data, "dental".data, "medicare".data,
   "aster".data, "nmc".data, "mediclinic".data, "life pharmacy".data,
   "boots".data, "aster pharmacy".data, "day today pharmacy".data,
   "seha".data, "dha".data, "nmc healthcare".data, "thumbay".data,
   "daman".data, "salon".data, "spa".data, "barbershop".data, "beauty".data,
   "cosmetics".data, "skincare".data, "haircut".data, "manicure".data,
   "pedicure".data, "massage".data, "gym".data, "fitness".data,
   "24hourfitness".data, "planet fitness".data, "la fitness".data,
   "crunch".data, "equinox".data, "flex fitness".data, "orangetheory".data]

/-- `self.categories['Utilities']` -/
def kwUtilities : List (List Char) :=
  ["dewa".data, "addc".data, "sewa".data, "fewa".data, "etisalat".data,
   "du".data, "internet".data, "mobile".data, "telecom".data,
   "electricity".data, "water".data, "utility".data, "bill".data,
   "wifi".data, "broadband".data, "phone bill".data, "electric bill".data]

/-- `self.categories['Entertainment & Media']` -/
def kwEntertainment : List (List Char) :=
  ["cinema".data, "movie".data, "vox".data, "reel".data, "osn".data,
   "gaming".data, "entertainment".data, "park".data, "beach".data,
   "attraction".data, "ticket".data, "event".data, "youtube".data,
   "disney".data, "hulu".data, "shahid".data, "disneyland".data,
   "balloon museum".data, "sawdust festival".data, "museum".data,
   "amusement".data]

/-- `self.categories['Technology']` -/
def kwTechnology : List (List Char) :=
  ["netflix".data, "spotify".data, "youtube premium".data,
   "amazon prime".data, "disney+".data, "adobe".data, "microsoft".data,
   "google".data, "icloud".data, "dropbox".data, "zoom".data,
   "subscription".data, "monthly".data, "annual".data, "recurring".data,
   "saas".data, "software".data, "app store".data, "play store".data,
   "itunes".data, "office 365".data, "hbo".data, "peacock".data,
   "paramount+".data, "apple tv".data, "apple one".data, "slack".data,
   "github".data, "figma".data, "notion".data, "canva".data,
   "grammarly".data, "dashlane".data, "1password".data, "nordvpn".data,
   "expressvpn".data, "duolingo".data, "headspace".data, "calm".data,
   "audible".data, "kindle unlimited".data]

/-- `self.categories['Finance & Banking']` -/
def kwFinance : List (List Char) :=
  ["atm".data, "cash withdrawal".data, "withdrawal".data,
   "atm withdrawal".data, "cash advance".data, "atm fee".data,
   "withdrawal fee".data, "bank fee".data, "service charge".data,
   "maintenance fee".data, "overdraft".data, "annual fee".data,
   "interest charge".data, "finance charge".data, "late payment fee".data,
   "wire transfer".data, "remittance".data, "foreign exchange".data,
   "forex".data, "currency exchange".data, "uae exchange".data,
   "al ansari exchange".data, "lulu exchange".data,
   "wall street exchange".data, "zelle".data, "venmo".data, "paypal".data,
   "western union".data, "moneygram".data, "loan repayment".data,
   "emi payment".data, "credit card payment".data, "insurance premium".data,
   "ach debit".data, "ach credit".data, "direct debit".data,
   "direct deposit".data, "pos purchase".data, "checkcard".data,
   "wire to".data, "wire from".data, "cash app".data, "apple pay".data,
   "google pay".data, "samsung pay".data, "tabby".data, "spotii".data,
   "cashew".data, "tamara".data]

/-- `self.categories[cat]`, empty for unknown keys (`dict.get(category, [])`). -/
def catKeywords (cat : List Char) : List (List Char) :=
  if cat = "Internal Transfer".data then kwInternalTransfer
  else if cat = "Salary & Income".data then kwSalaryIncome
  else if cat = "Food & Beverage".data then kwFoodBeverage
  else if cat = "Transportation & Logistics".data then kwTransport
  else if cat = "Retail & Shopping".data then kwRetail
  else if cat = "Healthcare".data then kwHealthcare
  else if cat = "Utilities".data then kwUtilities
  else if cat = "Entertainment & Media".data then kwEntertainment
  else if cat = "Technology".data then kwTechnology
  else if cat = "Finance & Banking".data then kwFinance
  else []

/-- The ordered `category_priority` list of `categorize_transaction`. -/
def categoryPriority : List (List Char) :=
  ["Internal Transfer".data, "Salary & Income".data, "Finance & Banking".data,
   "Technology".data, "Food & Beverage".data,
   "Transportation & Logistics".data, "Healthcare".data, "Utilities".data,
   "Entertainment & Media".data, "Retail & Shopping".data]

/-- Salary pre-check keywords (lines 260-261). -/
def salaryKws : List (List Char) :=
  ["salary".data, "payroll".data, "paycheck".data, "direct deposit".data,
   "wages".data, "commission payment".data, "bonus credit".data]

/-- Confirming terms required for a `Finance & Banking` keyword hit. -/
def fnbConfirm : List (List Char) :=
  ["atm".data, "withdrawal".data, "cash".data, "fee".data, "charge".data,
   "interest".data, "maintenance".data, "remittance".data, "exchange".data,
   "zelle".data, "venmo".data, "paypal".data, "western union".data,
   "forex".data, "overdraft".data, "tabby".data, "spotii".data,
   "tamara".data]

/-- Confirming terms required for a `Technology` keyword hit. -/
def techConfirm : List (List Char) :=
  ["subscription".data, "monthly".data, "netflix".data, "spotify".data,
   "prime".data, "office".data, "adobe".data, "google".data,
   "microsoft".data, "icloud".data]

/-- Secondary transport/food/retail word checks (lines 297-305). -/
def transport2 : List (List Char) :=
  ["taxi".data, "uber".data, "careem".data, "rta".data, "bolt".data,
   "indrive".data, "yango".data]

def food2 : List (List Char) :=
  ["restaurant".data, "cafe".data, "food".data, "dining".data, "eat".data,
   "talabat".data, "zomato".data, "deliveroo".data, "mrsool".data,
   "marsool".data]

def retail2 : List (List Char) :=
  ["mall".data, "shop".data, "store".data, "retail".data, "noon".data,
   "amazon".data]

/-- The `merchant_patterns` shorthand table, in insertion order. -/
def merchantPatterns : List (List Char × List Char) :=
  [("careem".data, "Transportation & Logistics".data),
   ("talabat".data, "Food & Beverage".data),
   ("zomato".data, "Food & Beverage".data),
   ("mrsool".data, "Food & Beverage".data),
   ("marsool".data, "Food & Beverage".data),
   ("netflix".data, "Technology".data),
   ("spotify".data, "Technology".data),
   ("amazon".data, "Retail & Shopping".data),
   ("noon".data, "Retail & Shopping".data),
   ("namshi".data, "Retail & Shopping".data),
   ("adnoc".data, "Transportation & Logistics".data),
   ("enoc".data, "Transportation & Logistics".data),
   ("eppco".data, "Transportation & Logistics".data),
   ("salik".data, "Transportation & Logistics".data),
   ("rta".data, "Transportation & Logistics".data),
   ("dewa".data, "Utilities".data),
   ("etisalat".data, "Utilities".data),
   ("e&".data, "Utilities".data),
   ("du telecom".data, "Utilities".data),
   ("addc".data, "Utilities".data),
   ("sewa".data, "Utilities".data),
   ("tabby".data, "Finance & Banking".data),
   ("spotii".data, "Finance & Banking".data),
   ("tamara".data, "Finance & Banking".data)]

/-- The closed 15-value category taxonomy (lines 347-363). -/
def taxonomy15 : List (List Char) :=
  ["Internal Transfer".data, "Salary & Income".data, "Food & Beverage".data,
   "Transportation & Logistics".data, "Retail & Shopping".data,
   "Healthcare".data, "Utilities".data, "Entertainment & Media".data,
   "Technology".data, "Finance & Banking".data, "Travel & Tourism".data,
   "Professional Services".data, "Real Estate".data, "Education".data,
   "Other".data]

/-- Inner keyword loop of the priority pass: first keyword contained in the
description wins, except that `Finance & Banking` and `Technology` hits also
need a confirming term (otherwise the loop moves on to the next keyword). -/
def keywordScan (dl cat : List Char) : List (List Char) → Option (List Char)
  | [] => Option.none
  | kw :: rest =>
    if subIn kw dl then
      if cat = "Finance & Banking".data then
        if anySubIn fnbConfirm dl then some cat else keywordScan dl cat rest
      else if cat = "Technology".data then
        if anySubIn techConfirm dl then some cat else keywordScan dl cat rest
      else some cat
    else keywordScan dl cat rest

/-- Outer loop of the priority pass over `category_priority`. -/
def priorityScan (dl : List Char) : List (List Char) → Option (List Char)
  | [] => Option.none
  | cat :: rest =>
    match keywordScan dl cat (catKeywords cat) with
    | some c => some c
    | Option.none => priorityScan dl rest

/-- The `merchant_patterns` fallback lookup. -/
def merchantScan (dl : List Char) : List (List Char × List Char) → Option (List Char)
  | [] => Option.none
  | (m, cat) :: rest => if subIn m dl then some cat else merchantScan dl rest

/-- `categorize_transaction`, with fuel for the `SQ *` self-recursion.  The
recursive call receives a string at least three characters shorter (the
`sq`/`*` marker is consumed), so fuel `length + 1` never runs out; the
exhaustion branch returns the same `'Other'` default as the source. -/
def categorizeGo : Nat → List Char → List Char
  | 0, _ => "Other".data
  | fuel + 1, description =>
    let descLower := pyStrip (pyLower description)
    match sqMatchLower descLower with
    | some g =>
      let cat := categorizeGo fuel (pyStrip g)
      if cat ≠ "Other".data then cat else "Retail & Shopping".data
    | Option.none =>
      if subIn ("mobn".data) descLower || hasLead ("mobn transfer".data) descLower
          || isIbftReference description then
        "Internal Transfer".data
      else if anySubIn salaryKws descLower then "Salary & Income".data
      else
        match priorityScan descLower categoryPriority with
        | some cat => cat
        | Option.none =>
          if anySubIn transport2 descLower then "Transportation & Logistics".data
          else if anySubIn food2 descLower then "Food & Beverage".data
          else if anySubIn retail2 descLower then "Retail & Shopping".data
          else
            match merchantScan descLower merchantPatterns with
            | some cat => cat
            | Option.none => "Other".data

/-- `categorize_transaction(description)`. -/
def categorizeTransaction (description : List Char) : List Char :=
  categorizeGo (description.length + 1) description

/-! ## Merchant Normalizer (`extract_merchant_name`, lines 175-235)

Each `re.sub` of the source is realised as a dedicated string function.  The
anchored prefix patterns are sequences of atoms (case-insensitive literals,
`\s+`, `\d{4}`, literal alternations); `(TRANSFER\s+)?` is expressed as two
alternatives tried in order, which is the regex backtracking behaviour. -/

/-- Case-insensitive prefix test. -/
def hasLeadCI : List Char → List Char → Bool
  | [], _ => true
  | _ :: _, [] => false
  | a :: p, b :: s => pyLowerChar a = pyLowerChar b && hasLeadCI p s

/-- `[A-Z]` class. -/
def isUpperAZ (c : Char) : Bool := 'A' ≤ c && c ≤ 'Z'

inductive RxAtom where
  | lit (s : List Char)
  | ws
  | d4
  | alts (xs : List (List Char))
deriving Repr

/-- Match a sequence of atoms at the head of `s`, returning the remainder.
`ws` is greedy `\s+`; the alternation literals of the source are pairwise
incompatible, so committing to the first matching literal is exact. -/
def matchAtoms : List RxAtom → List Char → Option (List Char)
  | [], s => some s
  | .lit l :: rest, s =>
    if hasLeadCI l s then matchAtoms rest (s.drop l.length) else Option.none
  | .ws :: rest, s =>
    let sp := s.takeWhile isPySpace
    if sp.isEmpty then Option.none else matchAtoms rest (s.drop sp.length)
  | .d4 :: rest, s =>
    if decide ((s.take 4).length = 4) && allDigits (s.take 4) then
      matchAtoms rest (s.drop 4)
    else Option.none
  | .alts xs :: rest, s =>
    match xs.find? (fun l => hasLeadCI l s) with
    | some l => matchAtoms rest (s.drop l.length)
    | Option.none => Option.none

/-- One anchored `re.sub(pattern, '', s)` with a prefix pattern given as
alternatives tried in order; no match leaves `s` unchanged. -/
def applyLead (alts : List (List RxAtom)) (s : List Char) : List Char :=
  match alts.findSome? (fun p => matchAtoms p s) with
  | some r => r
  | Option.none => s

/-- The ordered `prefix_patterns` list of Step 1 (lines 185-205). -/
def leadPats : List (List (List RxAtom)) :=
  [[[.lit ("CHECKCARD".data), .ws, .d4, .ws]],
   [[.lit ("MOBILE".data), .ws, .lit ("PURCHASE".data), .ws, .d4, .ws]],
   [[.lit ("POS".data), .ws, .lit ("PURCHASE".data), .ws, .d4, .ws]],
   [[.lit ("RECURRING".data), .ws, .lit ("PURCHASE".data), .ws, .d4, .ws]],
   [[.lit ("ONLINE".data), .ws, .lit ("PURCHASE".data), .ws, .d4, .ws]],
   [[.lit ("DEBIT".data), .ws, .lit ("CARD".data), .ws, .lit ("PURCHASE".data), .ws, .d4, .ws]],
   [[.lit ("DEBIT".data), .ws, .lit ("PURCHASE".data), .ws, .d4, .ws]],
   [[.lit ("ACH".data), .ws, .lit ("DEBIT".data), .ws]],
   [[.lit ("ACH".data), .ws, .lit ("CREDIT".data), .ws]],
   [[.lit ("WIRE".data), .ws, .lit ("TRANSFER".data), .ws, .alts ["TO".data, "FROM".data], .ws]],
   [[.lit ("WIRE".data), .ws, .alts ["TO".data, "FROM".data], .ws]],
   [[.lit ("ZELLE".data), .ws, .alts ["TO".data, "FROM".data, "PAYMENT".data], .ws]],
   [[.lit ("VENMO".data), .ws, .lit ("PAYMENT".data), .ws]],
   [[.lit ("PAYPAL".data), .ws, .lit ("TRANSFER".data), .ws],
    [.lit ("PAYPAL".data), .ws]],
   [[.lit ("DIRECT".data), .ws, .alts ["DEBIT".data, "DEPOSIT".data], .ws]],
   [[.lit ("ATM".data), .ws, .lit ("WITHDRAWAL".data), .ws]],
   [[.lit ("CHECKCARD".data), .ws]],
   [[.lit ("MOBILE".data), .ws, .lit ("PURCHASE".data), .ws]],
   [[.lit ("POS".data), .ws, .lit ("PURCHASE".data), .ws]]]

/-- Step 1: apply every prefix pattern in order, stripping after each. -/
def stripLeadPats (s : List Char) : List Char :=
  leadPats.foldl (fun s p => pyStrip (applyLead p s)) s

/-- Step 2: `re.match(r'^SQ\s*\*\s*(.+)', s, re.IGNORECASE)`, group 1 taken
from the original-case string (same backtracking as `sqMatchLower`). -/
def sqMatchCI (s : List Char) : Option (List Char) :=
  match s with
  | a :: b :: rest =>
    if pyLowerChar a = 's' && pyLowerChar b = 'q' then
      match rest.dropWhile isPySpace with
      | '*' :: r2 =>
        let u := r2.dropWhile isPySpace
        if !u.isEmpty then some (u.takeWhile (fun c => c ≠ '\n'))
        else
          match r2.reverse.dropWhile (fun c => c = '\n') with
          | [] => Option.none
          | c :: _ => some [c]
      | _ => Option.none
    else Option.none
  | _ => Option.none

/-- Step 3a: `re.sub(r'\s+[A-Z]{2}\s+\d{5}(-\d{4})?$', '', s)`, done on the
reversed string.  If the string ends with `-\d{4}` the optional group is the
only viable reading, so committing to it is exact. -/
def sub3a (s : List Char) : List Char :=
  let rev := s.reverse
  let rev1 :=
    match rev with
    | a :: b :: c :: d :: '-' :: r =>
      if a.isDigit && b.isDigit && c.isDigit && d.isDigit then r else rev
    | _ => rev
  match rev1 with
  | a :: b :: c :: d :: e :: r2 =>
    if a.isDigit && b.isDigit && c.isDigit && d.isDigit && e.isDigit then
      let sp1 := r2.takeWhile isPySpace
      if sp1.isEmpty then s
      else
        match r2.drop sp1.length with
        | u1 :: u2 :: r4 =>
          if isUpperAZ u1 && isUpperAZ u2 then
            match r4 with
            | x :: _ =>
              if isPySpace x then (r4.dropWhile isPySpace).reverse else s
            | [] => s
          else s
        | _ => s
  else s
  | _ => s

/-- Step 3b: `re.sub(r'\s+[A-Z]{2}$', '', s)`. -/
def sub3b (s : List Char) : List Char :=
  match s.reverse with
  | u1 :: u2 :: r =>
    if isUpperAZ u1 && isUpperAZ u2 then
      match r with
      | x :: _ => if isPySpace x then (r.dropWhile isPySpace).reverse else s
      | [] => s
    else s
  | _ => s

/-- Step 4a: `re.sub(r'\s+\d{8,}', '', s)` — delete every whitespace run
followed by eight or more digits (non-overlapping, left to right).  The fuel
argument (`length + 1`) never runs out: every step consumes a character. -/
def sub4a : Nat → List Char → List Char
  | 0, s => s
  | _, [] => []
  | fuel + 1, c :: t =>
    if isPySpace c then
      let sp := (c :: t).takeWhile isPySpace
      let rest1 := (c :: t).drop sp.length
      let ds := rest1.takeWhile Char.isDigit
      if 8 ≤ ds.length then sub4a fuel (rest1.drop ds.length)
      else sp ++ ds ++ sub4a fuel (rest1.drop ds.length)
    else c :: sub4a fuel t

/-- Step 4b: `re.sub(r'\b[0-9A-Fa-f]{10,}\b', '', s)` — a match must be a
complete maximal word-character run, entirely hex, of length ≥ 10. -/
def sub4b : Nat → List Char → List Char
  | 0, s => s
  | _, [] => []
  | fuel + 1, c :: t =>
    if isWordChar c then
      let run := (c :: t).takeWhile isWordChar
      let rest := (c :: t).drop run.length
      if 10 ≤ run.length && run.all isHexChar then sub4b fuel rest
      else run ++ sub4b fuel rest
    else c :: sub4b fuel t

/-- Tail of Step 5 on the reversed string: reversed `RECURRING` then `\s+`. -/
def sub5core (rev : List Char) : Option (List Char) :=
  if hasLeadCI ("gnirrucer".data) rev then
    let r := rev.drop 9
    match r with
    | x :: _ => if isPySpace x then some (r.dropWhile isPySpace) else Option.none
    | [] => Option.none
  else Option.none

/-- Step 5: `re.sub(r'\s+RECURRING(\s+CHARGE)?$', '', s, flags=re.IGNORECASE)`;
the optional `\s+CHARGE` tail is tried first, falling back to the bare form. -/
def sub5 (s : List Char) : List Char :=
  let rev := s.reverse
  let withOpt : Option (List Char) :=
    if hasLeadCI ("egrahc".data) rev then
      let r := rev.drop 6
      match r with
      | x :: _ => if isPySpace x then sub5core (r.dropWhile isPySpace) else Option.none
      | [] => Option.none
    else Option.none
  match withOpt with
  | some r => r.reverse
  | Option.none =>
    match sub5core rev with
    | some r => r.reverse
    | Option.none => s

/-- Step 6: `re.sub(r'\s+#\d+.*$', '', s)` — remove from the leftmost
whitespace run followed by `#`digits through the end; `.*` stops at a
newline and `$` also matches just before a final newline, which is then
kept (and removed by the following `strip`). -/
def sub6 : Nat → List Char → List Char
  | 0, s => s
  | _, [] => []
  | fuel + 1, c :: t =>
    if isPySpace c then
      let sp := (c :: t).takeWhile isPySpace
      match (c :: t).drop sp.length with
      | '#' :: r2 =>
        let ds := r2.takeWhile Char.isDigit
        if !ds.isEmpty then
          let post := (r2.drop ds.length).dropWhile (fun x => x ≠ '\n')
          if post.isEmpty then []
          else if post = ['\n'] then ['\n']
          else c :: sub6 fuel t
        else c :: sub6 fuel t
      | _ => c :: sub6 fuel t
    else c :: sub6 fuel t

/-- The character class `[A-Za-z0-9\s\.\&\'\-]` of Step 7. -/
def cls7 (c : Char) : Bool :=
  c.isAlphanum || isPySpace c || c = '.' || c = '&' || c = '\'' || c = '-'

/-- Does `\s+\d+\s+[A-Z].*$` match at `rest`? -/
def step7TailOk (rest : List Char) : Bool :=
  let sp1 := rest.takeWhile isPySpace
  if sp1.isEmpty then false
  else
    let r1 := rest.drop sp1.length
    let ds := r1.takeWhile Char.isDigit
    if ds.isEmpty then false
    else
      let r2 := r1.drop ds.length
      let sp2 := r2.takeWhile isPySpace
      if sp2.isEmpty then false
      else
        match r2.drop sp2.length with
        | u :: r3 =>
          isUpperAZ u &&
            (let post := r3.dropWhile (fun x => x ≠ '\n')
             post.isEmpty || post = ['\n'])
        | [] => false

/-- Step 7:
`re.sub(r"^([A-Za-z][A-Za-z0-9\s\.\&\'\-]{1,40}?)\s+\d+\s+[A-Z].*$", r'\1', s)`.
The lazy `{1,40}?` group is found by trying lengths 1..40 shortest-first; on a
match the whole string is replaced by the group (a kept final newline is
removed by the following `strip`). -/
def sub7 (s : List Char) : List Char :=
  match s with
  | c0 :: t =>
    if c0.isAlpha then
      match (List.range 40).findSome? (fun i =>
          let n := i + 1
          if decide ((t.take n).length = n) && (t.take n).all cls7 &&
              step7TailOk (t.drop n) then
            some (c0 :: t.take n)
          else Option.none) with
      | some g => g
      | Option.none => s
    else s
  | [] => s

/-- Steps 1-7 of `extract_merchant_name`: the ordered strip pipeline. -/
def emnPipeline (description : List Char) : List Char :=
  let s := pyStrip description
  let s := stripLeadPats s
  let s := match sqMatchCI s with | some g => pyStrip g | Option.none => s
  let s := pyStrip (sub3a s)
  let s := pyStrip (sub3b s)
  let s := pyStrip (sub4a (s.length + 1) s)
  let s := pyStrip (sub4b (s.length + 1) s)
  let s := pyStrip (sub5 s)
  let s := pyStrip (sub6 (s.length + 1) s)
  pyStrip (sub7 s)

/-- `extract_merchant_name(description)`: the strip pipeline, then
title-casing, truncation to 60 characters, and the raw-description fallback. -/
def extractMerchantName (description : List Char) : List Char :=
  if !(pyStrip (pyTitle (emnPipeline description))).isEmpty then
    (pyStrip (pyTitle (emnPipeline description))).take 60
  else description.take 60

/-! ## Numeric parsing

Python `float()` on the comma-stripped cell text, modelled over exact
rationals: optional surrounding whitespace, optional sign, decimal digits
with an optional fractional part, and an optional decimal exponent.
(Binary-float rounding and the `inf`/`nan` spellings are outside the model;
they do not affect any claim considered here.) -/

/-- Absolute value on `ℚ` through the executable core primitives
(`abs(x)` of Python floats). -/
def ratAbs (q : ℚ) : ℚ := if Rat.blt q 0 then Rat.neg q else q

/-- `float(s)`; `Option.none` models `ValueError`. -/
def parsePyFloat (s : List Char) : Option ℚ :=
  let t := pyStrip s
  let signed : Bool × List Char :=
    match t with
    | '+' :: r => (false, r)
    | '-' :: r => (true, r)
    | r => (false, r)
  let neg := signed.1
  let r := signed.2
  let ip := r.takeWhile Char.isDigit
  let r1 := r.drop ip.length
  let withFrac : Option (List Char × List Char) :=
    match r1 with
    | '.' :: r2 =>
      let fp := r2.takeWhile Char.isDigit
      if ip.isEmpty && fp.isEmpty then Option.none
      else some (fp, r2.drop fp.length)
    | _ => if ip.isEmpty then Option.none else some ([], r1)
  match withFrac with
  | Option.none => Option.none
  | some (fp, r3) =>
    let withExp : Option (Bool × Nat × List Char) :=
      match r3 with
      | 'e' :: r4 | 'E' :: r4 =>
        let es : Bool × List Char :=
          match r4 with
          | '+' :: r5 => (false, r5)
          | '-' :: r5 => (true, r5)
          | r5 => (false, r5)
        let eds := es.2.takeWhile Char.isDigit
        if eds.isEmpty then Option.none
        else some (es.1, natOfDigits eds, es.2.drop eds.length)
      | _ => some (false, 0, r3)
    match withExp with
    | Option.none => Option.none
    | some (eneg, e, r6) =>
      if !r6.isEmpty then Option.none
      else
        let num : Nat := natOfDigits ip * 10 ^ fp.length + natOfDigits fp
        let den : Nat := 10 ^ fp.length
        let num2 : Nat := if eneg then num else num * 10 ^ e
        let den2 : Nat := if eneg then den * 10 ^ e else den
        some (mkRat (if neg then -(num2 : Int) else (num2 : Int)) den2)

/-- `str.replace(',', '')`. -/
def removeCommas (s : List Char) : List Char := s.filter (fun c => c ≠ ',')

/-! ## JSON values and transaction records -/

/-- A parsed JSON value (the possible results of `json.loads`). -/
inductive Json where
  | null
  | bool (b : Bool)
  | num (q : ℚ)
  | str (s : List Char)
  | arr (es : List Json)
  | obj (kvs : List (List Char × Json))

/-- A transaction record as built by `process_excel_file` (dict keys `Date`,
`Amount`, `Description`, `MerchantName`, `Type`, `Category`, `Subcategory`;
the `Type` key is spelled `TypeStr` because `Type` is reserved in Lean).
`Category`/`Subcategory` hold `Json` because `ai_categorize_transactions`
writes raw response elements into them. -/
structure Tx where
  Date : List Char
  Amount : ℚ
  Description : List Char
  MerchantName : List Char
  TypeStr : List Char
  Category : Json
  Subcategory : Json

/-- `tx['Category'] = c; tx['Subcategory'] = c`. -/
def updCat (tx : Tx) (c : Json) : Tx := { tx with Category := c, Subcategory := c }

/-! ## Batch Refiner (`ai_categorize_transactions`, lines 341-528)

The per-batch classifier call is a free input: `Except.error` models a
transport failure, a timeout, or text that `json.loads` rejects; `Except.ok j`
models a successfully parsed JSON value `j`.  The post-parse code then:
pads a short array with each record's own `Category`; writes array elements
(or, for a long-enough string response, its single characters) into
`Category`/`Subcategory`; for every other JSON shape an exception (`len`,
`.append`, or integer indexing) is raised before any record is touched and
the batch falls through unchanged. -/

/-- Apply a (possibly short) array of categories to a batch; missing tail
entries are padded with each record's own existing category (which also
overwrites `Subcategory` with it). -/
def applyArr : List Tx → List Json → List Tx
  | [], _ => []
  | tx :: bt, [] => updCat tx tx.Category :: applyArr bt []
  | tx :: bt, c :: ct => updCat tx c :: applyArr bt ct

/-- Apply the characters of a string response (only reached when the string
is at least as long as the batch). -/
def applyChars : List Tx → List Char → List Tx
  | [], _ => []
  | _ :: _, [] => []
  | tx :: bt, c :: ct => updCat tx (.str [c]) :: applyChars bt ct

/-- Effect of one parsed JSON response on one batch. -/
def applyJson (batch : List Tx) : Json → List Tx
  | .arr es => applyArr batch es
  | .str cs => if cs.length < batch.length then batch else applyChars batch cs
  | _ => batch

/-- Effect of one classifier call outcome on one batch. -/
def applyBatch (batch : List Tx) : Except Unit Json → List Tx
  | .error _ => batch
  | .ok j => applyJson batch j

/-- The batch loop (`for i in range(0, len(transactions), batch_size)`),
batch size 50; the i-th element of `resps` is the outcome of the i-th call
(a missing element is a failed call).  The fuel argument (`length + 1`) never
runs out: each step drops fifty records. -/
def goBatches : Nat → List Tx → List (Except Unit Json) → List Tx
  | 0, txs, _ => txs
  | _, [], _ => []
  | fuel + 1, t :: ts, resps =>
    applyBatch ((t :: ts).take 50) (resps.headD (.error ())) ++
      goBatches fuel ((t :: ts).drop 50) (resps.drop 1)

/-- `ai_categorize_transactions(transactions)`: identity when the API key is
absent or there are no transactions; otherwise the batch loop.  Totality
models the outer `try/except` (no failure reaches the caller). -/
def aiCategorizeTransactions (hasKey : Bool) (txs : List Tx)
    (resps : List (Except Unit Json)) : List Tx :=
  if !hasKey || txs.isEmpty then txs else goBatches (txs.length + 1) txs resps

/-- The 50-record window of batch `i` in a list. -/
def batchSlice (i : Nat) (l : List Tx) : List Tx := (l.drop (50 * i)).take 50

/-! ## Header Locator (`find_data_headers`, lines 562-599) -/

def headerKeywords : List (List Char) :=
  ["date".data, "amount".data, "description".data, "particular".data,
   "narration".data, "debit".data, "credit".data, "balance".data,
   "type".data, "reference".data]

/-- A worksheet: rows of cell values, 1-indexed access, `max_row` /
`max_column` as `openpyxl` reports them. -/
def cellAt (ws : List (List CellVal)) (r c : Nat) : CellVal :=
  (ws.getD (r - 1) []).getD (c - 1) CellVal.none

def wsMaxRow (ws : List (List CellVal)) : Nat := ws.length

def wsMaxCol (ws : List (List CellVal)) : Nat :=
  ws.foldr (fun row acc => max row.length acc) 0

/-- `range(1, min(worksheet.max_column + 1, 10))`. -/
def colsWindow (ws : List (List CellVal)) : List Nat :=
  List.range' 1 (min (wsMaxCol ws + 1) 10 - 1)

/-- `range(1, min(20, worksheet.max_row + 1))`. -/
def rowWindow (ws : List (List CellVal)) : List Nat :=
  List.range' 1 (min 20 (wsMaxRow ws + 1) - 1)

/-- `str(worksheet.cell(row, col).value or '').lower().strip()`. -/
def cellLow (ws : List (List CellVal)) (r c : Nat) : List Char :=
  pyStrip (pyLower (strOrEmpty (cellAt ws r c)))

/-- Semantic column roles, `otherR` for a keyword hit that assigns no role
(e.g. `balance`). -/
inductive Role where
  | dateR | descR | typeR | refR | debitR | creditR | amountR | otherR
deriving DecidableEq, Repr

/-- Role of one lower-cased header cell: `Option.none` when the cell hits no
header keyword (it is then neither counted nor mapped); otherwise the
role given by the `if/elif` chain of lines 578-591. -/
def roleOfCell (cl : List Char) : Option Role :=
  if !cl.isEmpty && anySubIn headerKeywords cl then
    some
      (if subIn ("date".data) cl then .dateR
       else if subIn ("description".data) cl || subIn ("particular".data) cl
           || subIn ("narration".data) cl then .descR
       else if subIn ("type".data) cl then .typeR
       else if subIn ("reference".data) cl || subIn ("ref".data) cl then .refR
       else if subIn ("debit".data) cl then .debitR
       else if subIn ("credit".data) cl then .creditR
       else if subIn ("amount".data) cl then .amountR
       else .otherR)
  else Option.none

/-- The `row_data` dictionary. -/
structure RowData where
  header_row : Option Nat := Option.none
  date_col : Option Nat := Option.none
  description_col : Option Nat := Option.none
  type_col : Option Nat := Option.none
  reference_col : Option Nat := Option.none
  debit_col : Option Nat := Option.none
  credit_col : Option Nat := Option.none
  amount_col : Option Nat := Option.none
deriving DecidableEq, Repr

/-- `row_data[...] = col` for the detected role (later columns overwrite). -/
def updateRD (rd : RowData) (col : Nat) : Role → RowData
  | .dateR => { rd with date_col := some col }
  | .descR => { rd with description_col := some col }
  | .typeR => { rd with type_col := some col }
  | .refR => { rd with reference_col := some col }
  | .debitR => { rd with debit_col := some col }
  | .creditR => { rd with credit_col := some col }
  | .amountR => { rd with amount_col := some col }
  | .otherR => rd

/-- One column of the per-row scan: bump the hit counter and record the
role's column. -/
def scanStep (ws : List (List CellVal)) (r : Nat) (acc : Nat × RowData)
    (c : Nat) : Nat × RowData :=
  match roleOfCell (cellLow ws r c) with
  | some ρ => (acc.1 + 1, updateRD acc.2 c ρ)
  | Option.none => acc

/-- Scan one row: header-hit count and role→column map. -/
def scanRowRD (ws : List (List CellVal)) (r : Nat) : Nat × RowData :=
  (colsWindow ws).foldl (scanStep ws r) (0, {})

/-- The row loop: first row with at least three header hits. -/
def findRowLoop (ws : List (List CellVal)) : List Nat → Option (Nat × RowData)
  | [] => Option.none
  | r :: rest =>
    if 3 ≤ (scanRowRD ws r).1 then some (r, (scanRowRD ws r).2)
    else findRowLoop ws rest

/-- The hard-coded default mapping of line 599. -/
def defaultRD : RowData :=
  { header_row := some 1, date_col := some 1, description_col := some 2,
    debit_col := some 4, credit_col := some 5 }

/-- `find_data_headers(worksheet)`. -/
def findDataHeaders (ws : List (List CellVal)) : RowData :=
  match findRowLoop ws (rowWindow ws) with
  | some (r, rd) => { rd with header_row := some r }
  | Option.none => defaultRD

/-! ## Amount resolution and the row scan (`process_excel_file`,
lines 703-781) -/

/-- `debit_cell and str(debit_cell).strip() and str(debit_cell).strip() not in
['', '-', 'None']`. -/
def debitCellUsable (v : CellVal) : Bool :=
  pyTruthy v && !(pyStrip (strOf v)).isEmpty &&
    pyStrip (strOf v) ≠ "-".data && pyStrip (strOf v) ≠ "None".data

/-- Column-derived amount (lines 724-737): single-amount-column mode parses
`str(value or '0')`; debit/credit mode gives `-abs` / `+abs`; an unusable
pair of cells leaves the initial `amount = 0`.  `Option.none` models the
`ValueError/TypeError → continue` row skip. -/
def columnAmount (debitC creditC : CellVal) (amtCol : Option CellVal) : Option ℚ :=
  match amtCol with
  | some av =>
    parsePyFloat (removeCommas (strOf (if pyTruthy av then av else .str ("0".data))))
  | Option.none =>
    if debitCellUsable debitC then
      (parsePyFloat (removeCommas (strOf debitC))).map (fun q => Rat.neg (ratAbs q))
    else if debitCellUsable creditC then
      (parsePyFloat (removeCommas (strOf creditC))).map ratAbs
    else some 0

/-- Type values forcing a negative amount (line 744). -/
def negTypes : List (List Char) :=
  ["withdrawal".data, "debit".data, "dr".data, "debit card purchase".data]

/-- Type values forcing a positive amount (line 746). -/
def posTypes : List (List Char) :=
  ["deposit".data, "credit".data, "cr".data]

/-- FIX 1A (lines 742-747): the trimmed, lower-cased type value overrides the
sign; any other value leaves the amount unchanged. -/
def applyTypeSign (typeC : CellVal) (q : ℚ) : ℚ :=
  if pyTruthy typeC then
    let tv := pyLower (pyStrip (strOf typeC))
    if tv ∈ negTypes then Rat.neg (ratAbs q)
    else if tv ∈ posTypes then ratAbs q
    else q
  else q

def summaryKwsDate : List (List Char) :=
  ["TOTAL".data, "SUMMARY".data, "BALANCE".data, "OPENING".data,
   "CLOSING".data, "NET".data, "FLOW".data]

def summaryKwsDesc : List (List Char) :=
  ["TOTAL".data, "SUMMARY".data, "MONTHLY".data, "NET FLOW".data,
   "NET DEBIT".data, "NET CREDIT".data]

/-- Line 754: the raw description, or the `"Transaction N"` placeholder when
the description cell is falsy. -/
def rowRawDesc (descC : CellVal) (count : Nat) : List Char :=
  if pyTruthy descC then pyStrip (strOf descC)
  else "Transaction ".data ++ natDigits (count + 1)

/-- Lines 757-761: rule-based category of the cleaned merchant name, falling
back to the raw description when it yields `'Other'`. -/
def rowCategory (rawDesc : List Char) : List Char :=
  let cat0 := categorizeTransaction (extractMerchantName rawDesc)
  if cat0 = "Other".data then categorizeTransaction rawDesc else cat0

/-- The record built for an accepted row (lines 753-776): raw description
(or the `"Transaction N"` placeholder), normalized merchant, rule-based
category with raw-description fallback, preserved or synthesized type. -/
@[reducible] def mkTxRecord (cur today : List Char) (count : Nat)
    (dateC descC typeC : CellVal) (amount : ℚ) : Tx :=
  { Date := detectDateFormat dateC cur today,
    Amount := amount,
    Description := rowRawDesc descC count,
    MerchantName := extractMerchantName (rowRawDesc descC count),
    TypeStr :=
      if pyTruthy typeC then pyStrip (strOf typeC)
      else if Rat.blt amount 0 then "Withdrawal".data else "Deposit".data,
    Category := .str (rowCategory (rowRawDesc descC count)),
    Subcategory := .str (rowCategory (rowRawDesc descC count)) }

/-- One row of the scan loop (lines 704-777): `Option.none` is a skipped row
(empty or summary date cell, unparseable amount, zero amount); `count` is
`len(all_transactions)` when the row is processed. -/
def processRow (cur today : List Char) (count : Nat)
    (dateC descC typeC debitC creditC : CellVal) (amtCol : Option CellVal) :
    Option Tx :=
  if !pyTruthy dateC then Option.none
  else if anySubIn summaryKwsDate (pyUpper (strOf dateC)) then Option.none
  else if pyTruthy descC && anySubIn summaryKwsDesc (pyUpper (strOf descC)) then
    Option.none
  else
    match columnAmount debitC creditC amtCol with
    | Option.none => Option.none
    | some q0 =>
      let amount := applyTypeSign typeC q0
      if amount = 0 then Option.none
      else some (mkTxRecord cur today count dateC descC typeC amount)

/-- Read the cells of row `r` through the detected column map (lines 706-710
with the `.get(...)` defaults of lines 691-696). -/
def processRowAt (ws : List (List CellVal)) (cm : RowData) (cur today : List Char)
    (count : Nat) (r : Nat) : Option Tx :=
  processRow cur today count
    (cellAt ws r (cm.date_col.getD 1))
    (cellAt ws r (cm.description_col.getD 2))
    (match cm.type_col with | some c => cellAt ws r c | Option.none => CellVal.none)
    (cellAt ws r (cm.debit_col.getD 4))
    (cellAt ws r (cm.credit_col.getD 5))
    (cm.amount_col.map (fun c => cellAt ws r c))

/-- The row loop over one sheet, accumulating emitted records in order. -/
def processRowsLoop (ws : List (List CellVal)) (cm : RowData)
    (cur today : List Char) : List Nat → List Tx → List Tx
  | [], acc => acc
  | r :: rest, acc =>
    match processRowAt ws cm cur today acc.length r with
    | some tx => processRowsLoop ws cm cur today rest (acc ++ [tx])
    | Option.none => processRowsLoop ws cm cur today rest acc

/-- `range(header_row + 1, worksheet.max_row + 1)`. -/
def dataRows (ws : List (List CellVal)) (cm : RowData) : List Nat :=
  List.range' (cm.header_row.getD 1 + 1) (wsMaxRow ws - cm.header_row.getD 1)

/-- The per-worksheet part of `process_excel_file`: locate headers, then scan
every data row (rule-based categories only; the Batch Refiner runs
afterwards over the combined list). -/
def processSheet (ws : List (List CellVal)) (cur today : List Char) : List Tx :=
  let cm := findDataHeaders ws
  processRowsLoop ws cm cur today (dataRows ws cm) []

/-! ## Derived helpers used in the statements -/

/-- The rule-based category stored in a record, read back out of the `Json`
field (records built by the pipeline always store a `Json.str`). -/
def catStr (t : Tx) : List Char :=
  match t.Category with
  | .str s => s
  | _ => []

/-- Default record for out-of-range list indexing in statements. -/
def dTx : Tx :=
  { Date := [], Amount := 0, Description := [], MerchantName := [],
    TypeStr := [], Category := .null, Subcategory := .null }

/-- Result shape `YYYY-MM-DD`: ten characters, digits around dashes. -/
def isDateShape (l : List Char) : Bool :=
  match l with
  | [a, b, c, d, e, f, g, h, i, j] =>
    a.isDigit && b.isDigit && c.isDigit && d.isDigit && e = '-' &&
      f.isDigit && g.isDigit && h = '-' && i.isDigit && j.isDigit
  | _ => false

def isLeapYear (y : Nat) : Bool :=
  y % 4 = 0 && (y % 100 ≠ 0 || y % 400 = 0)

def daysInMonth (y m : Nat) : Nat :=
  if m = 2 then (if isLeapYear y then 29 else 28)
  else if m = 4 || m = 6 || m = 9 || m = 11 then 30
  else 31

/-- Modelled from the spec: "a string of the form YYYY-MM-DD denoting a valid
calendar date (month 01-12, day valid for that month)".  Used only to compare
the spec's claim with what the code produces. -/
def specValidDateString (s : List Char) : Bool :=
  match splitOnChar '-' s with
  | [y, m, d] =>
    allDigits y && allDigits m && allDigits d &&
      decide (y.length = 4) && decide (m.length = 2) && decide (d.length = 2) &&
      decide (1 ≤ natOfDigits m) && decide (natOfDigits m ≤ 12) &&
      decide (1 ≤ natOfDigits d) &&
      decide (natOfDigits d ≤ daysInMonth (natOfDigits y) (natOfDigits m))
  | _ => false

/-! ## Counterexample fixtures -/

/-- A record already carrying an in-taxonomy rule-based category. -/
def txOther : Tx :=
  { Date := [], Amount := 1, Description := "x".data, MerchantName := "x".data,
    TypeStr := [], Category := .str ("Other".data),
    Subcategory := .str ("Other".data) }

/-- Worksheet: proper header row, then a data row whose description cell is
empty while date and credit are valid. -/
def wsC8 : List (List CellVal) :=
  [[.str ("Date".data), .str ("Description".data), .str ("Type".data),
    .str ("Debit".data), .str ("Credit".data)],
   [.str ("15/01/2025".data), CellVal.none, CellVal.none, CellVal.none,
    .str ("5000".data)]]

/-- Worksheet whose first row has two distinct columns matching the date
role. -/
def wsC9 : List (List CellVal) :=
  [[.str ("date".data), .str ("value date".data), .str ("description".data)]]

/-! ## Theorems -/

/-- C3: the spec (and the function's own docstring, whose example is
`'530P79B7E39A6295 - M'`) require the IBFT rule to classify this description
as Internal Transfer; the code classifies it `Other`, because
`_is_ibft_reference` only accepts a pure-hex reference (`^[0-9A-F]{8,}$`)
after suffix-stripping and `P` is not a hex digit, while the compiled pattern
that does accept the `3-digit+letter+hex` shape (`_ibft_ref_pattern`) is
never invoked. -/
theorem c3_ibft_hex_divergence :
    categorizeTransaction ("530P79B7E39A6295 - M".data) = "Other".data ∧
    isIbftReference ("530P79B7E39A6295 - M".data) = false ∧
    ibftRefPatternMatches ("530P79B7E39A6295".data) = true := by
  refine ⟨by decide, by decide, by decide⟩

/-- C4 counterexample: the Merchant Normalizer is not idempotent.  On
`"shop 5 xyz"` one application gives `"Shop 5 Xyz"`; title-casing has exposed
the trailing-junk rule (`\s+\d+\s+[A-Z].*$`), so a second application strips
further, to `"Shop"`. -/
theorem c4_counterexample :
    extractMerchantName ("shop 5 xyz".data) = "Shop 5 Xyz".data ∧
    extractMerchantName (extractMerchantName ("shop 5 xyz".data)) = "Shop".data ∧
    ¬ extractMerchantName (extractMerchantName ("shop 5 xyz".data)) =
        extractMerchantName ("shop 5 xyz".data) := by
  refine ⟨by decide, by decide, by decide⟩

/-- C5 counterexample: `detect_date_format` performs no range validation:
`"99/99/2024"` (first component `> 12`) is resolved to `"2024-99-99"`, which
is not a valid calendar date. -/
theorem c5_counterexample :
    detectDateFormat (.str ("99/99/2024".data)) ("AED".data) ("2025-06-01".data)
      = "2024-99-99".data ∧
    specValidDateString ("2024-99-99".data) = false := by
  refine ⟨by decide, by decide⟩

/-- C8 counterexample: a row whose description cell is empty is not skipped:
the scan substitutes the placeholder description `"Transaction 1"` and still
emits one record. -/
theorem c8_counterexample :
    cellAt wsC8 2 2 = CellVal.none ∧
    (processSheet wsC8 ("AED".data) ("2025-06-01".data)).map (fun t => t.Description)
      = ["Transaction 1".data] := by
  refine ⟨by decide, by decide⟩

/-- C9 counterexample: columns 1 and 2 both match the date role, yet the
returned map records column 2 — the last matching column, not the first. -/
theorem c9_counterexample :
    roleOfCell (cellLow wsC9 1 1) = some Role.dateR ∧
    roleOfCell (cellLow wsC9 1 2) = some Role.dateR ∧
    (findDataHeaders wsC9).date_col = some 2 := by
  refine ⟨by decide, by decide, by decide⟩

/-- C10 counterexample: a type value `"  Pos Purchase  "` (not a sign
indicator) leaves the amount alone but is stored trimmed, not verbatim, in
the record's Type field. -/
theorem c10_counterexample :
    (processRow ("AED".data) ("2025-06-01".data) 0 (.str ("15/01/2025".data))
        (.str ("Coffee".data)) (.str ("  Pos Purchase  ".data)) CellVal.none
        CellVal.none (some (.str ("100".data)))).map (fun t => (t.TypeStr, t.Amount))
      = some ("Pos Purchase".data, 100) ∧
    "Pos Purchase".data ≠ "  Pos Purchase  ".data := by
  refine ⟨by decide, by decide⟩

/-- C2 counterexample: (a) the Batch Refiner copies response entries into
`Category` without validating them, so a response `["Pets"]` leaves a record
with a category outside the closed taxonomy; (b) a row whose description cell
holds only whitespace is emitted with an empty merchant name. -/
theorem c2_counterexample :
    (aiCategorizeTransactions true [txOther] [.ok (.arr [.str ("Pets".data)])]).map catStr
      = ["Pets".data] ∧
    "Pets".data ∉ taxonomy15 ∧
    (processRow ("AED".data) ("2025-06-01".data) 0 (.str ("15/01/2025".data))
        (.str ("   ".data)) CellVal.none CellVal.none (.str ("75".data))
        Option.none).map (fun t => t.MerchantName) = some [] := by
  refine ⟨by decide, by decide, by decide⟩

/-! ## String lemmas -/

theorem dropWhile_all_false {p : Char → Bool} {l : List Char}
    (h : ∀ c ∈ l, p c = false) : l.dropWhile p = l := by
  cases l with
  | nil => rfl
  | cons c t => simp [List.dropWhile_cons, h c (List.mem_cons_self _ _)]

theorem pyStrip_eq_self {l : List Char} (h : ∀ c ∈ l, isPySpace c = false) :
    pyStrip l = l := by
  unfold pyStrip
  rw [dropWhile_all_false h, dropWhile_all_false, List.reverse_reverse]
  intro c hc
  exact h c (List.mem_reverse.mp hc)

theorem splitOnChar_not_mem {c : Char} {l : List Char} (h : c ∉ l) :
    splitOnChar c l = [l] := by
  induction l with
  | nil => rfl
  | cons a t ih =>
    have hac : ¬ a = c := fun hh => h (hh ▸ List.mem_cons_self _ _)
    have ht : c ∉ t := fun hm => h (List.mem_cons_of_mem _ hm)
    simp [splitOnChar, hac, ih ht]

theorem splitOnChar_append {c : Char} {xs ys : List Char} (h : c ∉ xs) :
    splitOnChar c (xs ++ c :: ys) = xs :: splitOnChar c ys := by
  induction xs with
  | nil => simp [splitOnChar]
  | cons a t ih =>
    have hac : ¬ a = c := fun hh => h (hh ▸ List.mem_cons_self _ _)
    have ht : c ∉ t := fun hm => h (List.mem_cons_of_mem _ hm)
    simp [splitOnChar, hac, ih ht]

theorem isPySpace_eq_false_of_isDigit {c : Char} (h : c.isDigit = true) :
    isPySpace c = false := by
  by_contra hne
  have hsp : isPySpace c = true := by
    revert hne; cases isPySpace c <;> simp
  unfold isPySpace at hsp
  simp only [Bool.or_eq_true, decide_eq_true_eq] at hsp
  rcases hsp with ((((h1 | h2) | h3) | h4) | h5) | h6 <;>
    (subst_vars; exact absurd h (by decide))

theorem not_mem_of_allDigits {ch : Char} {l : List Char}
    (h : allDigits l = true) (hch : ch.isDigit = false) : ch ∉ l := by
  intro hm
  unfold allDigits at h
  rw [List.all_eq_true] at h
  have := h ch hm
  rw [hch] at this
  exact Bool.noConfusion this

theorem exists_two {α} {l : List α} (h : l.length = 2) :
    ∃ a b, l = [a, b] := by
  rcases l with _ | ⟨a, _ | ⟨b, _ | ⟨c, t⟩⟩⟩
  · simp at h
  · simp at h
  · exact ⟨a, b, rfl⟩
  · simp at h

theorem exists_four {α} {l : List α} (h : l.length = 4) :
    ∃ a b c d, l = [a, b, c, d] := by
  rcases l with _ | ⟨a, _ | ⟨b, _ | ⟨c, _ | ⟨d, _ | ⟨e, t⟩⟩⟩⟩⟩
  · simp at h
  · simp at h
  · simp at h
  · simp at h
  · exact ⟨a, b, c, d, rfl⟩
  · simp at h

theorem zfill2_eq {s : List Char} (h : allDigits s = true) (h1 : 1 ≤ s.length)
    (h2 : s.length ≤ 2) :
    ∃ c1 c2, zfill2 s = [c1, c2] ∧ c1.isDigit = true ∧ c2.isDigit = true := by
  unfold allDigits at h
  rw [List.all_eq_true] at h
  rcases s with _ | ⟨a, _ | ⟨b, _ | ⟨c, t⟩⟩⟩
  · simp at h1
  · exact ⟨'0', a, by simp [zfill2], by decide, h a (by simp)⟩
  · exact ⟨a, b, by simp [zfill2], h a (by simp), h b (by simp)⟩
  · simp at h2

/-! ## C1: four-digit-year date disambiguation -/

/-- C1: for every date string `A/B/YYYY` with a four-digit year, the Date
Resolver resolves day/month exactly as specified: `A > 12` gives `YYYY-B-A`
regardless of currency; otherwise `B > 12` gives `YYYY-A-B`; otherwise
currency `USD` gives `YYYY-A-B` and any other currency `YYYY-B-A`, each
component zero-padded to two digits. -/
theorem c1_slash_year4_disambiguation
    (a b y cur today : List Char)
    (ha : allDigits a = true) (ha1 : 1 ≤ a.length) (ha2 : a.length ≤ 2)
    (hb : allDigits b = true) (hb1 : 1 ≤ b.length) (hb2 : b.length ≤ 2)
    (hy : allDigits y = true) (hy4 : y.length = 4) :
    (12 < natOfDigits a →
      detectDateFormat (.str (a ++ '/' :: b ++ '/' :: y)) cur today
        = y ++ '-' :: zfill2 b ++ '-' :: zfill2 a) ∧
    (natOfDigits a ≤ 12 → 12 < natOfDigits b →
      detectDateFormat (.str (a ++ '/' :: b ++ '/' :: y)) cur today
        = y ++ '-' :: zfill2 a ++ '-' :: zfill2 b) ∧
    (natOfDigits a ≤ 12 → natOfDigits b ≤ 12 → cur = "USD".data →
      detectDateFormat (.str (a ++ '/' :: b ++ '/' :: y)) cur today
        = y ++ '-' :: zfill2 a ++ '-' :: zfill2 b) ∧
    (natOfDigits a ≤ 12 → natOfDigits b ≤ 12 → cur ≠ "USD".data →
      detectDateFormat (.str (a ++ '/' :: b ++ '/' :: y)) cur today
        = y ++ '-' :: zfill2 b ++ '-' :: zfill2 a) := by
  have hmem : ∀ c ∈ a ++ '/' :: b ++ '/' :: y,
      c.isDigit = true ∨ c = '/' := by
    intro c hc
    simp only [List.mem_append, List.mem_cons] at hc
    unfold allDigits at ha hb hy
    rw [List.all_eq_true] at ha hb hy
    rcases hc with (h | h | h) | h | h
    · exact Or.inl (ha c h)
    · exact Or.inr h
    · exact Or.inl (hb c h)
    · exact Or.inr h
    · exact Or.inl (hy c h)
  have hnospace : ∀ c ∈ a ++ '/' :: b ++ '/' :: y, isPySpace c = false := by
    intro c hc
    rcases hmem c hc with h | h
    · exact isPySpace_eq_false_of_isDigit h
    · subst h; decide
  have hslashA : '/' ∉ a := not_mem_of_allDigits ha (by decide)
  have hslashB : '/' ∉ b := not_mem_of_allDigits hb (by decide)
  have hslashY : '/' ∉ y := not_mem_of_allDigits hy (by decide)
  have hsplit : splitOnChar '/' (a ++ '/' :: b ++ '/' :: y) = [a, b, y] := by
    rw [show (a ++ '/' :: b ++ '/' :: y) = (a ++ '/' :: (b ++ '/' :: y)) by simp,
      splitOnChar_append hslashA, splitOnChar_append hslashB,
      splitOnChar_not_mem hslashY]
  have hdash : '-' ∉ a ++ '/' :: b ++ '/' :: y := by
    intro hm
    rcases hmem '-' hm with h | h
    · exact absurd h (by decide)
    · exact absurd h (by decide)
  have hsplitDash : splitOnChar '-' (a ++ '/' :: b ++ '/' :: y)
      = [a ++ '/' :: b ++ '/' :: y] := splitOnChar_not_mem hdash
  have h2 : trySlash2 (a ++ '/' :: b ++ '/' :: y) = Option.none := by
    rw [trySlash2, hsplit]
    have : ¬ y.length = 2 := by omega
    simp [this]
  have hiso : tryIso (a ++ '/' :: b ++ '/' :: y) = Option.none := by
    rw [tryIso, hsplitDash]
  have hkey : detectDateFormat (.str (a ++ '/' :: b ++ '/' :: y)) cur today
      = (trySlash4 (a ++ '/' :: b ++ '/' :: y) cur).getD today := by
    have hdef : detectDateFormat (.str (a ++ '/' :: b ++ '/' :: y)) cur today
        = ((trySlash2 (pyStrip (a ++ '/' :: b ++ '/' :: y))).orElse fun _ =>
            ((tryIso (pyStrip (a ++ '/' :: b ++ '/' :: y))).orElse fun _ =>
              trySlash4 (pyStrip (a ++ '/' :: b ++ '/' :: y)) cur)).getD today := rfl
    rw [hdef, pyStrip_eq_self hnospace, h2, hiso]
    rfl
  have h4 : trySlash4 (a ++ '/' :: b ++ '/' :: y) cur
      = (if 12 < natOfDigits a then
          some (y ++ '-' :: zfill2 b ++ '-' :: zfill2 a)
        else if 12 < natOfDigits b then
          some (y ++ '-' :: zfill2 a ++ '-' :: zfill2 b)
        else if cur = "USD".data then
          some (y ++ '-' :: zfill2 a ++ '-' :: zfill2 b)
        else
          some (y ++ '-' :: zfill2 b ++ '-' :: zfill2 a)) := by
    rw [trySlash4, hsplit]
    simp [ha, hb, hy, ha1, ha2, hb1, hb2, hy4]
  refine ⟨?_, ?_, ?_, ?_⟩
  · intro hlt
    rw [hkey, h4, if_pos hlt]
    rfl
  · intro hle hlt
    rw [hkey, h4, if_neg (by omega), if_pos hlt]
    rfl
  · intro hlea hleb hcur
    rw [hkey, h4, if_neg (by omega), if_neg (by omega), if_pos hcur]
    rfl
  · intro hlea hleb hcur
    rw [hkey, h4, if_neg (by omega), if_neg (by omega), if_neg hcur]
    rfl

/-- C1 witness: the spec's own scenario `"03/04/2024"` under both currencies. -/
theorem c1_witness :
    detectDateFormat (.str ("03/04/2024".data)) ("USD".data) ("2025-06-01".data)
      = "2024-03-04".data ∧
    detectDateFormat (.str ("03/04/2024".data)) ("AED".data) ("2025-06-01".data)
      = "2024-04-03".data := by
  have h1 := (c1_slash_year4_disambiguation ("03".data) ("04".data) ("2024".data)
    ("USD".data) ("2025-06-01".data) (by decide) (by decide) (by decide)
    (by decide) (by decide) (by decide) (by decide) (by decide)).2.2.1
    (by decide) (by decide) rfl
  have h2 := (c1_slash_year4_disambiguation ("03".data) ("04".data) ("2024".data)
    ("AED".data) ("2025-06-01".data) (by decide) (by decide) (by decide)
    (by decide) (by decide) (by decide) (by decide) (by decide)).2.2.2
    (by decide) (by decide) (by decide)
  exact ⟨h1, h2⟩

/-! ## C5: result shape of the Date Resolver -/

theorem dch_isDigit (x : Nat) : (dch x).isDigit = true := by
  unfold dch
  have h : x % 10 < 10 := Nat.mod_lt _ (by omega)
  set k := x % 10 with hk
  interval_cases k <;> decide

theorem fmtISO_shape (y m d : Nat) : isDateShape (fmtISO y m d) = true := by
  simp [fmtISO, isDateShape, dch_isDigit]

theorem trySlash2_shape {ds r : List Char} (h : trySlash2 ds = some r) :
    isDateShape r = true := by
  unfold trySlash2 at h
  split at h
  case h_1 mo dy yr =>
    split at h
    case isTrue hcond =>
      simp only [Bool.and_eq_true, decide_eq_true_eq] at hcond
      obtain ⟨⟨⟨⟨⟨⟨⟨hmo, hdy⟩, hyr⟩, hmo1⟩, hmo2⟩, hdy1⟩, hdy2⟩, hyr2⟩ := hcond
      obtain ⟨c1, c2, hz1, hd1, hd2⟩ := zfill2_eq hmo hmo1 hmo2
      obtain ⟨c3, c4, hz2, hd3, hd4⟩ := zfill2_eq hdy hdy1 hdy2
      obtain ⟨y1, y2, hyre⟩ := exists_two hyr2
      subst hyre
      unfold allDigits at hyr
      rw [List.all_eq_true] at hyr
      have hy1 := hyr y1 (by simp)
      have hy2 := hyr y2 (by simp)
      rw [Option.some.injEq] at h
      subst h
      rw [hz1, hz2]
      split <;> simp [isDateShape, hd1, hd2, hd3, hd4, hy1, hy2]
    case isFalse => exact absurd h (by simp)
  case h_2 => exact absurd h (by simp)

theorem tryIso_shape {ds r : List Char} (h : tryIso ds = some r) :
    isDateShape r = true := by
  unfold tryIso at h
  split at h
  case h_1 yr mo dy =>
    split at h
    case isTrue hcond =>
      simp only [Bool.and_eq_true, decide_eq_true_eq] at hcond
      obtain ⟨⟨⟨⟨⟨⟨⟨hyr, hmo⟩, hdy⟩, hyr4⟩, hmo1⟩, hmo2⟩, hdy1⟩, hdy2⟩ := hcond
      obtain ⟨c1, c2, hz1, hd1, hd2⟩ := zfill2_eq hmo hmo1 hmo2
      obtain ⟨c3, c4, hz2, hd3, hd4⟩ := zfill2_eq hdy hdy1 hdy2
      obtain ⟨y1, y2, y3, y4, hyre⟩ := exists_four hyr4
      subst hyre
      unfold allDigits at hyr
      rw [List.all_eq_true] at hyr
      have hy1 := hyr y1 (by simp)
      have hy2 := hyr y2 (by simp)
      have hy3 := hyr y3 (by simp)
      have hy4 := hyr y4 (by simp)
      rw [Option.some.injEq] at h
      subst h
      rw [hz1, hz2]
      simp [isDateShape, hd1, hd2, hd3, hd4, hy1, hy2, hy3, hy4]
    case isFalse => exact absurd h (by simp)
  case h_2 => exact absurd h (by simp)

theorem trySlash4_shape {ds cur r : List Char} (h : trySlash4 ds cur = some r) :
    isDateShape r = true := by
  unfold trySlash4 at h
  split at h
  case h_1 a b yr =>
    split at h
    case isTrue hcond =>
      simp only [Bool.and_eq_true, decide_eq_true_eq] at hcond
      obtain ⟨⟨⟨⟨⟨⟨⟨ha, hb⟩, hyr⟩, ha1⟩, ha2⟩, hb1⟩, hb2⟩, hyr4⟩ := hcond
      obtain ⟨c1, c2, hz1, hd1, hd2⟩ := zfill2_eq ha ha1 ha2
      obtain ⟨c3, c4, hz2, hd3, hd4⟩ := zfill2_eq hb hb1 hb2
      obtain ⟨y1, y2, y3, y4, hyre⟩ := exists_four hyr4
      subst hyre
      unfold allDigits at hyr
      rw [List.all_eq_true] at hyr
      have hy1 := hyr y1 (by simp)
      have hy2 := hyr y2 (by simp)
      have hy3 := hyr y3 (by simp)
      have hy4 := hyr y4 (by simp)
      split at h <;>
        [skip; split at h] <;>
        [skip; skip; split at h] <;>
        (rw [Option.some.injEq] at h; subst h; rw [hz1, hz2];
          simp [isDateShape, hd1, hd2, hd3, hd4, hy1, hy2, hy3, hy4])
    case isFalse => exact absurd h (by simp)
  case h_2 => exact absurd h (by simp)

theorem chain_shape (ds cur today : List Char) (htoday : isDateShape today = true) :
    isDateShape
      (((trySlash2 ds).orElse fun _ =>
          ((tryIso ds).orElse fun _ => trySlash4 ds cur)).getD today) = true := by
  cases h2 : trySlash2 ds with
  | some r => simpa [Option.orElse] using trySlash2_shape h2
  | none =>
    cases hiso : tryIso ds with
    | some r => simpa [Option.orElse] using tryIso_shape hiso
    | none =>
      cases h4 : trySlash4 ds cur with
      | some r => simpa [Option.orElse] using trySlash4_shape h4
      | none => simpa [Option.orElse] using htoday

/-- Well-formedness of a native date cell: the bounds `datetime` itself
guarantees (`MINYEAR = 1`, `MAXYEAR = 9999`). -/
def cellWF : CellVal → Prop
  | .date y m d => 1 ≤ y ∧ y ≤ 9999 ∧ 1 ≤ m ∧ m ≤ 12 ∧ 1 ≤ d ∧ d ≤ 31
  | _ => True

/-- C5 (amended): for every cell value and currency, `detect_date_format`
never raises (it is total) and always returns a string of the shape
`YYYY-MM-DD` — four digits, dash, two digits, dash, two digits — falling back
to the current date when no rule matches; but the month/day fields are copied
from the input without range validation, so the result need not denote a
valid calendar date. -/
theorem c5_amended_shape (v : CellVal) (cur : List Char) (ty tm td : Nat)
    (hv : cellWF v) (_ht1 : 1 ≤ ty) (_ht2 : ty ≤ 9999) (_ht3 : 1 ≤ tm)
    (_ht4 : tm ≤ 12) (_ht5 : 1 ≤ td) (_ht6 : td ≤ 31) :
    isDateShape (detectDateFormat v cur (fmtISO ty tm td)) = true := by
  cases v with
  | date yy mm dd => exact fmtISO_shape yy mm dd
  | none =>
    exact chain_shape (pyStrip (strOf CellVal.none)) cur _ (fmtISO_shape ty tm td)
  | str s =>
    exact chain_shape (pyStrip (strOf (CellVal.str s))) cur _ (fmtISO_shape ty tm td)
  | int n =>
    exact chain_shape (pyStrip (strOf (CellVal.int n))) cur _ (fmtISO_shape ty tm td)
  | dec m e =>
    exact chain_shape (pyStrip (strOf (CellVal.dec m e))) cur _ (fmtISO_shape ty tm td)

/-- C5 witness: an unparseable string falls back to the (well-formed) current
date, and the result has the `YYYY-MM-DD` shape. -/
theorem c5_witness :
    isDateShape
      (detectDateFormat (.str ("garbage".data)) ("AED".data) (fmtISO 2025 6 1))
      = true :=
  c5_amended_shape (.str ("garbage".data)) ("AED".data) 2025 6 1 trivial
    (by decide) (by decide) (by decide) (by decide) (by decide) (by decide)

/-! ## C6, C8, C10: the row scan -/

theorem ratAbs_eq_abs (q : ℚ) : ratAbs q = |q| := by
  unfold ratAbs
  split
  case isTrue h =>
    rw [abs_of_neg (show q < 0 from h)]
    rfl
  case isFalse h =>
    rw [abs_of_nonneg (not_lt.mp (fun hh => h hh))]

/-- Anatomy of an accepted row: the column amount parsed, the sign-adjusted
amount is non-zero, and the record is `mkTxRecord` at that amount. -/
theorem processRow_some
    {cur today : List Char} {count : Nat}
    {dateC descC typeC debitC creditC : CellVal} {amtCol : Option CellVal}
    {tx : Tx}
    (h : processRow cur today count dateC descC typeC debitC creditC amtCol
        = some tx) :
    ∃ q0, columnAmount debitC creditC amtCol = some q0 ∧
      applyTypeSign typeC q0 ≠ 0 ∧
      tx = mkTxRecord cur today count dateC descC typeC (applyTypeSign typeC q0) := by
  unfold processRow at h
  split at h
  · exact absurd h (by simp)
  · split at h
    · exact absurd h (by simp)
    · split at h
      · exact absurd h (by simp)
      · split at h
        case h_1 => exact absurd h (by simp)
        case h_2 q0 heq =>
          rw [show (let amount := applyTypeSign typeC q0;
              if amount = 0 then Option.none
              else some (mkTxRecord cur today count dateC descC typeC amount))
            = (if applyTypeSign typeC q0 = 0 then Option.none
               else some (mkTxRecord cur today count dateC descC typeC
                 (applyTypeSign typeC q0))) from rfl] at h
          split at h
          case isTrue => exact absurd h (by simp)
          case isFalse hne =>
            rw [Option.some.injEq] at h
            exact ⟨q0, heq, hne, h.symm⟩

theorem mkTxRecord_Amount (cur today : List Char) (count : Nat)
    (dateC descC typeC : CellVal) (amount : ℚ) :
    (mkTxRecord cur today count dateC descC typeC amount).Amount = amount := rfl

/-- C6: for every row that yields a record, a type value in
{withdrawal, debit, dr} (after trimming and lower-casing) forces a negative
amount, a value in {deposit, credit, cr} forces a positive amount, and when
the type cell is absent or empty the column-derived amount is kept as-is. -/
theorem c6_type_sign_override
    (cur today : List Char) (count : Nat)
    (dateC descC typeC debitC creditC : CellVal) (amtCol : Option CellVal)
    (tx : Tx)
    (h : processRow cur today count dateC descC typeC debitC creditC amtCol
        = some tx) :
    (pyTruthy typeC = true →
      pyLower (pyStrip (strOf typeC))
          ∈ (["withdrawal".data, "debit".data, "dr".data] : List (List Char)) →
      tx.Amount < 0) ∧
    (pyTruthy typeC = true →
      pyLower (pyStrip (strOf typeC))
          ∈ (["deposit".data, "credit".data, "cr".data] : List (List Char)) →
      0 < tx.Amount) ∧
    (pyTruthy typeC = false →
      some tx.Amount = columnAmount debitC creditC amtCol) := by
  obtain ⟨q0, hca, hne, htx⟩ := processRow_some h
  have hAmt : tx.Amount = applyTypeSign typeC q0 := by
    rw [htx, mkTxRecord_Amount]
  refine ⟨?_, ?_, ?_⟩
  · intro htr hmem
    have hmemNeg : pyLower (pyStrip (strOf typeC)) ∈ negTypes := by
      simp only [List.mem_cons, List.not_mem_nil, or_false] at hmem
      rcases hmem with h1 | h1 | h1 <;> (rw [h1]; decide)
    have hsign : applyTypeSign typeC q0 = Rat.neg (ratAbs q0) := by
      unfold applyTypeSign
      rw [if_pos htr, if_pos hmemNeg]
    have hq0 : q0 ≠ 0 := by
      intro hz
      apply hne
      rw [hsign, hz]
      decide
    rw [hAmt, hsign, show Rat.neg (ratAbs q0) = -(ratAbs q0) from rfl,
      ratAbs_eq_abs]
    simpa using abs_pos.mpr hq0
  · intro htr hmem
    have hmemPos : pyLower (pyStrip (strOf typeC)) ∈ posTypes := by
      simp only [List.mem_cons, List.not_mem_nil, or_false] at hmem
      rcases hmem with h1 | h1 | h1 <;> (rw [h1]; decide)
    have hnotNeg : pyLower (pyStrip (strOf typeC)) ∉ negTypes := by
      simp only [List.mem_cons, List.not_mem_nil, or_false] at hmem
      rcases hmem with h1 | h1 | h1 <;> (rw [h1]; decide)
    have hsign : applyTypeSign typeC q0 = ratAbs q0 := by
      unfold applyTypeSign
      rw [if_pos htr, if_neg hnotNeg, if_pos hmemPos]
    have hq0 : q0 ≠ 0 := by
      intro hz
      apply hne
      rw [hsign, hz]
      decide
    rw [hAmt, hsign, ratAbs_eq_abs]
    exact abs_pos.mpr hq0
  · intro hfalse
    have hsign : applyTypeSign typeC q0 = q0 := by
      unfold applyTypeSign
      rw [hfalse]
      simp
    rw [hAmt, hsign, hca]

/-- C6 witness: a `DR` type cell with a positive amount column yields a
negative amount. -/
theorem c6_witness :
    processRow ("AED".data) ("2025-06-01".data) 0 (.str ("15/01/2025".data))
        (.str ("Coffee".data)) (.str ("DR".data)) CellVal.none CellVal.none
        (some (.str ("5.00".data)))
      = some (mkTxRecord ("AED".data) ("2025-06-01".data) 0
          (.str ("15/01/2025".data)) (.str ("Coffee".data)) (.str ("DR".data))
          (-5)) ∧
    (mkTxRecord ("AED".data) ("2025-06-01".data) 0 (.str ("15/01/2025".data))
        (.str ("Coffee".data)) (.str ("DR".data)) (-5)).Amount < 0 := by
  constructor
  · rfl
  · exact (c6_type_sign_override ("AED".data) ("2025-06-01".data) 0
      (.str ("15/01/2025".data)) (.str ("Coffee".data)) (.str ("DR".data))
      CellVal.none CellVal.none (some (.str ("5.00".data))) _ rfl).1
      (by decide) (by decide)

theorem mkTxRecord_TypeStr (cur today : List Char) (count : Nat)
    (dateC descC typeC : CellVal) (amount : ℚ) :
    (mkTxRecord cur today count dateC descC typeC amount).TypeStr
      = (if pyTruthy typeC then pyStrip (strOf typeC)
         else if Rat.blt amount 0 then "Withdrawal".data else "Deposit".data) := rfl

theorem mkTxRecord_Description (cur today : List Char) (count : Nat)
    (dateC descC typeC : CellVal) (amount : ℚ) :
    (mkTxRecord cur today count dateC descC typeC amount).Description
      = rowRawDesc descC count := rfl

/-- C10 (amended): only `withdrawal`/`debit`/`dr`/`debit card purchase` force
a negative amount and only `deposit`/`credit`/`cr` force a positive one, as
exact full-string matches on the trimmed lower-cased type value; every other
non-empty type value leaves the column-derived amount unchanged, and the
record's Type field receives the type value trimmed of surrounding
whitespace with its case preserved (not a verbatim copy). -/
theorem c10_amended_trimmed_type
    (cur today : List Char) (count : Nat)
    (dateC descC typeC debitC creditC : CellVal) (amtCol : Option CellVal)
    (tx : Tx)
    (h : processRow cur today count dateC descC typeC debitC creditC amtCol
        = some tx)
    (htr : pyTruthy typeC = true)
    (hneg : pyLower (pyStrip (strOf typeC)) ∉ negTypes)
    (hpos : pyLower (pyStrip (strOf typeC)) ∉ posTypes) :
    some tx.Amount = columnAmount debitC creditC amtCol ∧
    tx.TypeStr = pyStrip (strOf typeC) := by
  obtain ⟨q0, hca, hne, htx⟩ := processRow_some h
  have hsign : applyTypeSign typeC q0 = q0 := by
    unfold applyTypeSign
    rw [if_pos htr, if_neg hneg, if_neg hpos]
  constructor
  · rw [htx, mkTxRecord_Amount, hsign, hca]
  · rw [htx, mkTxRecord_TypeStr, if_pos htr]

/-- C10 witness: the `"  Pos Purchase  "` row keeps the raw column amount and
stores the trimmed type string. -/
theorem c10_witness :
    some ((mkTxRecord ("AED".data) ("2025-06-01".data) 0
        (.str ("15/01/2025".data)) (.str ("Coffee".data))
        (.str ("  Pos Purchase  ".data)) 100).Amount)
      = columnAmount CellVal.none CellVal.none (some (.str ("100".data))) ∧
    (mkTxRecord ("AED".data) ("2025-06-01".data) 0 (.str ("15/01/2025".data))
        (.str ("Coffee".data)) (.str ("  Pos Purchase  ".data)) 100).TypeStr
      = pyStrip (strOf (.str ("  Pos Purchase  ".data))) :=
  c10_amended_trimmed_type ("AED".data) ("2025-06-01".data) 0
    (.str ("15/01/2025".data)) (.str ("Coffee".data))
    (.str ("  Pos Purchase  ".data)) CellVal.none CellVal.none
    (some (.str ("100".data))) _ rfl (by decide) (by decide) (by decide)

/-- C8 (amended): a row whose description cell is missing or empty is NOT
skipped; when its date and amount resolve, the scan substitutes the
placeholder description `"Transaction N"` (`N` = records so far + 1) and
still emits the record (never with an empty description). -/
theorem c8_amended_placeholder
    (cur today : List Char) (count : Nat)
    (dateC descC typeC debitC creditC : CellVal) (amtCol : Option CellVal)
    (tx : Tx)
    (h : processRow cur today count dateC descC typeC debitC creditC amtCol
        = some tx)
    (hdesc : pyTruthy descC = false) :
    tx.Description = "Transaction ".data ++ natDigits (count + 1) ∧
    tx.Description ≠ [] := by
  obtain ⟨q0, hca, hne, htx⟩ := processRow_some h
  have hd : tx.Description = "Transaction ".data ++ natDigits (count + 1) := by
    rw [htx, mkTxRecord_Description]
    unfold rowRawDesc
    rw [hdesc]
    simp
  refine ⟨hd, ?_⟩
  rw [hd]
  simp

/-- C8 witness: the empty-description row of `wsC8` (as a direct
`processRow` call) is emitted with description `"Transaction 1"`. -/
theorem c8_witness :
    (mkTxRecord ("AED".data) ("2025-06-01".data) 0 (.str ("15/01/2025".data))
        CellVal.none CellVal.none 5000).Description
      = "Transaction ".data ++ natDigits 1 ∧
    (mkTxRecord ("AED".data) ("2025-06-01".data) 0 (.str ("15/01/2025".data))
        CellVal.none CellVal.none 5000).Description ≠ [] :=
  c8_amended_placeholder ("AED".data) ("2025-06-01".data) 0
    (.str ("15/01/2025".data)) CellVal.none CellVal.none CellVal.none
    (.str ("5000".data)) Option.none _ rfl rfl

/-! ## C7: batch-scoped fault isolation in the Batch Refiner -/

theorem applyArr_length (b : List Tx) : ∀ es : List Json,
    (applyArr b es).length = b.length := by
  induction b with
  | nil => intro es; rfl
  | cons tx bt ih =>
    intro es
    cases es with
    | nil => simp [applyArr, ih]
    | cons c ct => simp [applyArr, ih]

theorem applyChars_length (b : List Tx) : ∀ cs : List Char,
    (applyChars b cs).length = min b.length cs.length := by
  induction b with
  | nil => intro cs; simp [applyChars]
  | cons tx bt ih =>
    intro cs
    cases cs with
    | nil => simp [applyChars]
    | cons c ct => simp [applyChars, ih]; omega

theorem applyJson_length (b : List Tx) (j : Json) :
    (applyJson b j).length = b.length := by
  cases j with
  | arr es => exact applyArr_length b es
  | str cs =>
    show (if cs.length < b.length then b else applyChars b cs).length = b.length
    split
    · rfl
    · rename_i hlen
      rw [applyChars_length]
      omega
  | null => rfl
  | bool bb => rfl
  | num q => rfl
  | obj kvs => rfl

theorem applyBatch_length (b : List Tx) (r : Except Unit Json) :
    (applyBatch b r).length = b.length := by
  cases r with
  | error e => rfl
  | ok j => exact applyJson_length b j

theorem applyBatch_nil (r : Except Unit Json) : applyBatch [] r = [] := by
  cases r with
  | error e => rfl
  | ok j => cases j <;> rfl

theorem goBatches_nil (f : Nat) (resps : List (Except Unit Json)) :
    goBatches f [] resps = [] := by
  cases f <;> rfl

theorem getD_drop_one {α} (resps : List α) (i : Nat) (d : α) :
    (resps.drop 1).getD i d = resps.getD (i + 1) d := by
  cases resps <;> rfl

theorem getD_zero_headD {α} (resps : List α) (d : α) :
    resps.getD 0 d = resps.headD d := by
  cases resps <;> rfl

/-- The i-th 50-record window of the batch loop's output is exactly the
effect of the i-th response on the i-th window of the input. -/
theorem goBatches_slice (i : Nat) : ∀ (f : Nat) (txs : List Tx)
    (resps : List (Except Unit Json)), txs.length < f →
    batchSlice i (goBatches f txs resps)
      = applyBatch (batchSlice i txs) (resps.getD i (.error ())) := by
  induction i with
  | zero =>
    intro f txs resps hf
    cases txs with
    | nil =>
      have h1 : batchSlice 0 ([] : List Tx) = [] := by simp [batchSlice]
      rw [goBatches_nil, h1, applyBatch_nil]
    | cons t ts =>
      cases f with
      | zero => omega
      | succ f' =>
        show batchSlice 0 (applyBatch ((t :: ts).take 50) (resps.headD (.error ())) ++
            goBatches f' ((t :: ts).drop 50) (resps.drop 1)) = _
        rw [getD_zero_headD]
        set A := applyBatch ((t :: ts).take 50) (resps.headD (.error ())) with hA
        have hAlen : A.length = min 50 (t :: ts).length := by
          rw [hA, applyBatch_length, List.length_take]
        clear_value A
        unfold batchSlice
        simp only [Nat.mul_zero, List.drop_zero]
        rcases Nat.lt_or_ge (t :: ts).length 50 with hlt | hge
        · have hdrop : (t :: ts).drop 50 = [] := List.drop_eq_nil_of_le (by omega)
          rw [hdrop, goBatches_nil, List.append_nil,
            List.take_of_length_le (by omega), List.take_of_length_le (by omega),
            hA, List.take_of_length_le (by omega)]
        · rw [List.take_append_eq_append_take, List.take_of_length_le (by omega),
            show 50 - A.length = 0 by omega, List.take_zero, List.append_nil]
          exact hA
  | succ i ih =>
    intro f txs resps hf
    cases txs with
    | nil =>
      have h1 : batchSlice (i + 1) ([] : List Tx) = [] := by simp [batchSlice]
      rw [goBatches_nil, h1, applyBatch_nil]
    | cons t ts =>
      cases f with
      | zero => omega
      | succ f' =>
        show batchSlice (i + 1) (applyBatch ((t :: ts).take 50) (resps.headD (.error ())) ++
            goBatches f' ((t :: ts).drop 50) (resps.drop 1)) = _
        set A := applyBatch ((t :: ts).take 50) (resps.headD (.error ())) with hA
        have hAlen : A.length = min 50 (t :: ts).length := by
          rw [hA, applyBatch_length, List.length_take]
        clear_value A
        have hstep : batchSlice (i + 1) (A ++ goBatches f' ((t :: ts).drop 50) (resps.drop 1))
            = batchSlice i (goBatches f' ((t :: ts).drop 50) (resps.drop 1)) := by
          rcases Nat.lt_or_ge (t :: ts).length 50 with hlt | hge
          · have hdrop : (t :: ts).drop 50 = [] := List.drop_eq_nil_of_le (by omega)
            rw [hdrop, goBatches_nil, List.append_nil]
            unfold batchSlice
            rw [List.drop_eq_nil_of_le (show A.length ≤ 50 * (i + 1) by omega),
              List.drop_eq_nil_of_le (show ([] : List Tx).length ≤ 50 * i by simp)]
          · have hA50 : A.length = 50 := by omega
            unfold batchSlice
            rw [List.drop_append_eq_append_drop,
              List.drop_eq_nil_of_le (show A.length ≤ 50 * (i + 1) by omega)]
            simp only [List.nil_append]
            rw [show 50 * (i + 1) - A.length = 50 * i by omega]
        have hlen2 : ((t :: ts).drop 50).length < f' := by
          rw [List.length_drop]
          simp only [List.length_cons] at hf ⊢
          omega
        rw [hstep, ih f' ((t :: ts).drop 50) (resps.drop 1) hlen2, getD_drop_one]
        congr 1
        unfold batchSlice
        rw [List.drop_drop]
        congr 2
        omega

theorem applyArr_getD_category (b : List Tx) : ∀ (es : List Json) (j : Nat),
    es.length ≤ j →
    ((applyArr b es).getD j dTx).Category = (b.getD j dTx).Category := by
  induction b with
  | nil => intro es j hj; rfl
  | cons tx bt ih =>
    intro es j hj
    cases es with
    | nil =>
      cases j with
      | zero => rfl
      | succ j' => exact ih [] j' (by simp)
    | cons c ct =>
      cases j with
      | zero => simp at hj
      | succ j' => exact ih ct j' (by simpa using hj)

/-- C7: for every record list and per-batch classifier outcomes: a batch
whose call fails (throws, times out, or returns unparseable text) keeps all
its records — and hence their rule-based categories — unchanged, without
raising; and a batch whose response is a JSON array shorter than the batch
keeps each record's own category at every missing tail position. -/
theorem c7_batch_fault_isolation (txs : List Tx)
    (resps : List (Except Unit Json)) (i : Nat) :
    (resps.getD i (.error ()) = .error () →
      batchSlice i (aiCategorizeTransactions true txs resps) = batchSlice i txs) ∧
    (∀ es : List Json, resps.getD i (.error ()) = .ok (.arr es) →
      ∀ j : Nat, es.length ≤ j →
        ((batchSlice i (aiCategorizeTransactions true txs resps)).getD j dTx).Category
          = ((batchSlice i txs).getD j dTx).Category) := by
  have key : batchSlice i (aiCategorizeTransactions true txs resps)
      = applyBatch (batchSlice i txs) (resps.getD i (.error ())) := by
    cases txs with
    | nil =>
      show batchSlice i [] = applyBatch (batchSlice i []) _
      simp [batchSlice, applyBatch_nil]
    | cons t ts =>
      show batchSlice i (goBatches ((t :: ts).length + 1) (t :: ts) resps) = _
      exact goBatches_slice i _ _ _ (by omega)
  constructor
  · intro herr
    rw [key, herr]
    rfl
  · intro es hok j hj
    rw [key, hok]
    exact applyArr_getD_category _ es j hj

/-- C7 witness: a failed call leaves the batch intact; an empty (shorter)
array response keeps the record's own category. -/
theorem c7_witness :
    batchSlice 0 (aiCategorizeTransactions true [txOther] [Except.error ()])
      = batchSlice 0 [txOther] ∧
    ((batchSlice 0 (aiCategorizeTransactions true [txOther]
        [Except.ok (Json.arr [])])).getD 0 dTx).Category
      = ((batchSlice 0 [txOther]).getD 0 dTx).Category :=
  ⟨(c7_batch_fault_isolation [txOther] [Except.error ()] 0).1 rfl,
   (c7_batch_fault_isolation [txOther] [Except.ok (Json.arr [])] 0).2 [] rfl 0
     (by decide)⟩

/-! ## C4: the title-casing step is idempotent -/

theorem toNat_ofNat_valid {n : Nat} (h : n < 55296) :
    (Char.ofNat n).toNat = n := by
  rw [Char.ofNat, dif_pos (Or.inl h)]
  rfl

theorem pyIsAlpha_pyUpperChar (c : Char) :
    pyIsAlpha (pyUpperChar c) = pyIsAlpha c := by
  unfold pyUpperChar
  by_cases h : (97 ≤ c.toNat && c.toNat ≤ 122) = true
  · rw [if_pos h]
    simp only [Bool.and_eq_true, decide_eq_true_eq] at h
    have h32 : (Char.ofNat (c.toNat - 32)).toNat = c.toNat - 32 :=
      toNat_ofNat_valid (by omega)
    unfold pyIsAlpha
    rw [h32, Bool.eq_iff_iff]
    simp only [Bool.or_eq_true, Bool.and_eq_true, decide_eq_true_eq]
    constructor <;> intro <;> omega
  · rw [if_neg h]

theorem pyIsAlpha_pyLowerChar (c : Char) :
    pyIsAlpha (pyLowerChar c) = pyIsAlpha c := by
  unfold pyLowerChar
  by_cases h : (65 ≤ c.toNat && c.toNat ≤ 90) = true
  · rw [if_pos h]
    simp only [Bool.and_eq_true, decide_eq_true_eq] at h
    have h32 : (Char.ofNat (c.toNat + 32)).toNat = c.toNat + 32 :=
      toNat_ofNat_valid (by omega)
    unfold pyIsAlpha
    rw [h32, Bool.eq_iff_iff]
    simp only [Bool.or_eq_true, Bool.and_eq_true, decide_eq_true_eq]
    constructor <;> intro <;> omega
  · rw [if_neg h]

theorem pyUpperChar_idem (c : Char) :
    pyUpperChar (pyUpperChar c) = pyUpperChar c := by
  unfold pyUpperChar
  by_cases h : (97 ≤ c.toNat && c.toNat ≤ 122) = true
  · rw [if_pos h]
    simp only [Bool.and_eq_true, decide_eq_true_eq] at h
    have h32 : (Char.ofNat (c.toNat - 32)).toNat = c.toNat - 32 :=
      toNat_ofNat_valid (by omega)
    have hcond : ¬ ((97 ≤ (Char.ofNat (c.toNat - 32)).toNat &&
        (Char.ofNat (c.toNat - 32)).toNat ≤ 122) = true) := by
      simp only [h32, Bool.and_eq_true, decide_eq_true_eq]
      intro hcon
      omega
    rw [if_neg hcond]
  · rw [if_neg h, if_neg h]

theorem pyLowerChar_idem (c : Char) :
    pyLowerChar (pyLowerChar c) = pyLowerChar c := by
  unfold pyLowerChar
  by_cases h : (65 ≤ c.toNat && c.toNat ≤ 90) = true
  · rw [if_pos h]
    simp only [Bool.and_eq_true, decide_eq_true_eq] at h
    have h32 : (Char.ofNat (c.toNat + 32)).toNat = c.toNat + 32 :=
      toNat_ofNat_valid (by omega)
    have hcond : ¬ ((65 ≤ (Char.ofNat (c.toNat + 32)).toNat &&
        (Char.ofNat (c.toNat + 32)).toNat ≤ 90) = true) := by
      simp only [h32, Bool.and_eq_true, decide_eq_true_eq]
      intro hcon
      omega
    rw [if_neg hcond]
  · rw [if_neg h, if_neg h]

theorem pyTitleGo_idem (l : List Char) : ∀ b : Bool,
    pyTitleGo b (pyTitleGo b l) = pyTitleGo b l := by
  induction l with
  | nil => intro b; rfl
  | cons c t ih =>
    intro b
    by_cases hc : pyIsAlpha c = true
    · cases b
      · have hc' : pyIsAlpha (pyUpperChar c) = true := by
          rw [pyIsAlpha_pyUpperChar]; exact hc
        simp [pyTitleGo, hc, hc', pyUpperChar_idem, ih true]
      · have hc' : pyIsAlpha (pyLowerChar c) = true := by
          rw [pyIsAlpha_pyLowerChar]; exact hc
        simp [pyTitleGo, hc, hc', pyLowerChar_idem, ih true]
    · simp [pyTitleGo, hc, ih false]

/-- C4 (amended): the Merchant Normalizer is not idempotent — title-casing
can expose the trailing-junk rule to a second pass (see the counterexample)
— but its final title-casing step is: for every string,
`title(title(s)) = title(s)`. -/
theorem c4_title_idempotent (s : List Char) : pyTitle (pyTitle s) = pyTitle s :=
  pyTitleGo_idem s false

/-! ## C2: pipeline record invariants and what the Batch Refiner preserves -/

theorem keywordScan_mem {dl cat c : List Char} : ∀ {kws : List (List Char)},
    keywordScan dl cat kws = some c → c = cat := by
  intro kws
  induction kws with
  | nil => intro h; exact absurd h (by simp [keywordScan])
  | cons kw rest ih =>
    intro h
    unfold keywordScan at h
    split at h
    · split at h
      · split at h
        · injection h with h2; exact h2.symm
        · exact ih h
      · split at h
        · split at h
          · injection h with h2; exact h2.symm
          · exact ih h
        · injection h with h2; exact h2.symm
    · exact ih h

theorem priorityScan_mem {dl c : List Char} : ∀ {cats : List (List Char)},
    priorityScan dl cats = some c → c ∈ cats := by
  intro cats
  induction cats with
  | nil => intro h; exact absurd h (by simp [priorityScan])
  | cons cat rest ih =>
    intro h
    unfold priorityScan at h
    split at h
    · rename_i c' heq
      injection h with h
      subst h
      exact (keywordScan_mem heq) ▸ List.mem_cons_self _ _
    · exact List.mem_cons_of_mem _ (ih h)

theorem merchantScan_mem {dl c : List Char} :
    ∀ {ps : List (List Char × List Char)},
    merchantScan dl ps = some c → c ∈ ps.map Prod.snd := by
  intro ps
  induction ps with
  | nil => intro h; exact absurd h (by simp [merchantScan])
  | cons p rest ih =>
    intro h
    unfold merchantScan at h
    split at h
    · injection h with h
      subst h
      exact List.mem_cons_self _ _
    · exact List.mem_cons_of_mem _ (ih h)

/-- Every value the Rule Classifier can return belongs to the closed
15-value taxonomy. -/
theorem categorizeGo_mem : ∀ (fuel : Nat) (d : List Char),
    categorizeGo fuel d ∈ taxonomy15 := by
  have hPrio : ∀ x ∈ categoryPriority, x ∈ taxonomy15 := by
    intro x hx
    exact of_decide_eq_true (List.all_eq_true.mp
      (show categoryPriority.all (fun y => decide (y ∈ taxonomy15)) = true by decide)
      x hx)
  have hMerch : ∀ x ∈ merchantPatterns.map Prod.snd, x ∈ taxonomy15 := by
    intro x hx
    exact of_decide_eq_true (List.all_eq_true.mp
      (show (merchantPatterns.map Prod.snd).all (fun y => decide (y ∈ taxonomy15))
          = true by decide)
      x hx)
  intro fuel
  induction fuel with
  | zero =>
    intro d
    exact show ("Other".data : List Char) ∈ taxonomy15 by decide
  | succ f ih =>
    intro d
    dsimp only [categorizeGo]
    split
    · split
      · exact ih _
      · decide
    · split
      · decide
      · split
        · decide
        · split
          · rename_i cat heq
            exact hPrio cat (priorityScan_mem heq)
          · split
            · decide
            · split
              · decide
              · split
                · decide
                · split
                  · rename_i cat heq
                    exact hMerch cat (merchantScan_mem heq)
                  · decide

theorem categorizeTransaction_mem (d : List Char) :
    categorizeTransaction d ∈ taxonomy15 := categorizeGo_mem _ d

theorem take_ne_nil_of_ne_nil {l : List Char} (h : l ≠ []) : l.take 60 ≠ [] := by
  intro hc
  rw [List.take_eq_nil_iff] at hc
  rcases hc with hc | hc
  · exact absurd hc (by decide)
  · exact h hc

theorem lastStep_ne_nil (result d : List Char) (hd : d ≠ []) :
    (if !result.isEmpty then result.take 60 else d.take 60) ≠ [] := by
  split
  · rename_i hres
    rw [Bool.not_eq_eq_eq_not, Bool.not_true, List.isEmpty_eq_false] at hres
    exact take_ne_nil_of_ne_nil hres
  · exact take_ne_nil_of_ne_nil hd

/-- The Merchant Normalizer never returns an empty name for a non-empty
description (Step 8's fallback). -/
theorem extractMerchantName_ne_nil {d : List Char} (hd : d ≠ []) :
    extractMerchantName d ≠ [] :=
  lastStep_ne_nil (pyStrip (pyTitle (emnPipeline d))) d hd

theorem mkTxRecord_MerchantName (cur today : List Char) (count : Nat)
    (dateC descC typeC : CellVal) (amount : ℚ) :
    (mkTxRecord cur today count dateC descC typeC amount).MerchantName
      = extractMerchantName (rowRawDesc descC count) := by
  with_reducible rfl


theorem mkTxRecord_Category (cur today : List Char) (count : Nat)
    (dateC descC typeC : CellVal) (amount : ℚ) :
    (mkTxRecord cur today count dateC descC typeC amount).Category
      = Json.str (rowCategory (rowRawDesc descC count)) := rfl

theorem rowCategory_mem (rawDesc : List Char) :
    rowCategory rawDesc ∈ taxonomy15 := by
  unfold rowCategory
  dsimp only
  split
  · exact categorizeTransaction_mem _
  · exact categorizeTransaction_mem _

/-- The three per-record facts of the amended C2. -/
theorem processRow_invariants
    {cur today : List Char} {count : Nat}
    {dateC descC typeC debitC creditC : CellVal} {amtCol : Option CellVal}
    {tx : Tx}
    (h : processRow cur today count dateC descC typeC debitC creditC amtCol
        = some tx) :
    tx.Amount ≠ 0 ∧ (∃ c, tx.Category = Json.str c ∧ c ∈ taxonomy15) ∧
      (tx.Description ≠ [] → tx.MerchantName ≠ []) := by
  obtain ⟨q0, hca, hne, htx⟩ := processRow_some h
  refine ⟨?_, ?_, ?_⟩
  · rw [htx, mkTxRecord_Amount]
    exact hne
  · exact ⟨_, by rw [htx, mkTxRecord_Category], rowCategory_mem _⟩
  · intro hdesc
    rw [htx, mkTxRecord_Description] at hdesc
    rw [htx, mkTxRecord_MerchantName]
    exact extractMerchantName_ne_nil hdesc

theorem processRowsLoop_invariants (ws : List (List CellVal)) (cm : RowData)
    (cur today : List Char) : ∀ (rows : List Nat) (acc : List Tx),
    (∀ t ∈ acc, t.Amount ≠ 0 ∧ (∃ c, t.Category = Json.str c ∧ c ∈ taxonomy15) ∧
      (t.Description ≠ [] → t.MerchantName ≠ [])) →
    ∀ t ∈ processRowsLoop ws cm cur today rows acc,
      t.Amount ≠ 0 ∧ (∃ c, t.Category = Json.str c ∧ c ∈ taxonomy15) ∧
        (t.Description ≠ [] → t.MerchantName ≠ []) := by
  intro rows
  induction rows with
  | nil => intro acc hacc t ht; exact hacc t ht
  | cons r rest ih =>
    intro acc hacc t ht
    unfold processRowsLoop at ht
    revert ht
    split
    · rename_i tx hpr
      intro ht
      refine ih (acc ++ [tx]) ?_ t ht
      intro u hu
      rcases List.mem_append.mp hu with hu | hu
      · exact hacc u hu
      · rw [List.mem_singleton.mp hu]
        exact processRow_invariants hpr
    · intro ht
      exact ih acc hacc t ht

/-- Fields other than `Category`/`Subcategory` agree. -/
def sameCore (a b : Tx) : Prop :=
  b.Date = a.Date ∧ b.Amount = a.Amount ∧ b.Description = a.Description ∧
    b.MerchantName = a.MerchantName ∧ b.TypeStr = a.TypeStr

theorem sameCore_refl_list : ∀ l : List Tx, List.Forall₂ sameCore l l := by
  intro l
  induction l with
  | nil => exact List.Forall₂.nil
  | cons t ts ih => exact List.Forall₂.cons ⟨rfl, rfl, rfl, rfl, rfl⟩ ih

theorem forall₂_append_my {R : Tx → Tx → Prop} :
    ∀ {l1 l2 l3 l4 : List Tx}, List.Forall₂ R l1 l2 → List.Forall₂ R l3 l4 →
    List.Forall₂ R (l1 ++ l3) (l2 ++ l4) := by
  intro l1
  induction l1 with
  | nil =>
    intro l2 l3 l4 h12 h34
    cases h12
    exact h34
  | cons a t ih =>
    intro l2 l3 l4 h12 h34
    cases h12 with
    | cons hab ht => exact List.Forall₂.cons hab (ih ht h34)

theorem applyArr_core : ∀ (b : List Tx) (es : List Json),
    List.Forall₂ sameCore b (applyArr b es) := by
  intro b
  induction b with
  | nil => intro es; exact List.Forall₂.nil
  | cons tx bt ih =>
    intro es
    cases es with
    | nil => exact List.Forall₂.cons ⟨rfl, rfl, rfl, rfl, rfl⟩ (ih [])
    | cons c ct => exact List.Forall₂.cons ⟨rfl, rfl, rfl, rfl, rfl⟩ (ih ct)

theorem applyChars_core : ∀ (b : List Tx) (cs : List Char),
    b.length ≤ cs.length → List.Forall₂ sameCore b (applyChars b cs) := by
  intro b
  induction b with
  | nil => intro cs hlen; exact List.Forall₂.nil
  | cons tx bt ih =>
    intro cs hlen
    cases cs with
    | nil => simp at hlen
    | cons c ct =>
      exact List.Forall₂.cons ⟨rfl, rfl, rfl, rfl, rfl⟩ (ih ct (by simpa using hlen))

theorem applyBatch_core (b : List Tx) (r : Except Unit Json) :
    List.Forall₂ sameCore b (applyBatch b r) := by
  cases r with
  | error e => exact sameCore_refl_list b
  | ok j =>
    cases j with
    | arr es => exact applyArr_core b es
    | str cs =>
      show List.Forall₂ sameCore b
        (if cs.length < b.length then b else applyChars b cs)
      split
      · exact sameCore_refl_list b
      · exact applyChars_core b cs (by omega)
    | null => exact sameCore_refl_list b
    | bool bb => exact sameCore_refl_list b
    | num q => exact sameCore_refl_list b
    | obj kvs => exact sameCore_refl_list b

theorem goBatches_core : ∀ (f : Nat) (txs : List Tx)
    (resps : List (Except Unit Json)),
    List.Forall₂ sameCore txs (goBatches f txs resps) := by
  intro f
  induction f with
  | zero =>
    intro txs resps
    cases txs with
    | nil => exact List.Forall₂.nil
    | cons t ts => exact sameCore_refl_list (t :: ts)
  | succ f' ih =>
    intro txs resps
    cases txs with
    | nil => exact List.Forall₂.nil
    | cons t ts =>
      show List.Forall₂ sameCore (t :: ts)
        (applyBatch ((t :: ts).take 50) (resps.headD (.error ())) ++
          goBatches f' ((t :: ts).drop 50) (resps.drop 1))
      have h2 := forall₂_append_my
        (applyBatch_core ((t :: ts).take 50) (resps.headD (.error ())))
        (ih ((t :: ts).drop 50) (resps.drop 1))
      rw [List.take_append_drop] at h2
      exact h2

/-- C2 (amended): every record emitted by the sheet scan has a non-zero
amount, a rule-based category in the closed 15-value taxonomy, and a
non-empty merchant name whenever its description is non-empty (a
whitespace-only description cell yields an empty merchant name); and for
every record list and classifier response the Batch Refiner keeps the
number, order, and all non-category fields of the records — but it copies
response values into `Category`/`Subcategory` unvalidated, so refined
categories stay in the taxonomy only when the response's entries do. -/
theorem c2_amended :
    (∀ (ws : List (List CellVal)) (cur today : List Char) (tx : Tx),
      tx ∈ processSheet ws cur today →
      tx.Amount ≠ 0 ∧ (∃ c, tx.Category = Json.str c ∧ c ∈ taxonomy15) ∧
        (tx.Description ≠ [] → tx.MerchantName ≠ [])) ∧
    (∀ (hasKey : Bool) (txs : List Tx) (resps : List (Except Unit Json)),
      List.Forall₂ sameCore txs (aiCategorizeTransactions hasKey txs resps)) := by
  constructor
  · intro ws cur today tx htx
    exact processRowsLoop_invariants ws (findDataHeaders ws) cur today
      (dataRows ws (findDataHeaders ws)) [] (by intro t ht; cases ht) tx htx
  · intro hasKey txs resps
    unfold aiCategorizeTransactions
    split
    · exact sameCore_refl_list txs
    · exact goBatches_core _ txs resps

/-- C2 witness: the record scanned from `wsC8` satisfies the invariants, and
a failed-call refiner pass preserves the record's core fields. -/
theorem c2_witness :
    ((mkTxRecord ("AED".data) ("2025-06-01".data) 0 (.str ("15/01/2025".data))
        CellVal.none CellVal.none 5000).Amount ≠ 0 ∧
      (∃ c, (mkTxRecord ("AED".data) ("2025-06-01".data) 0
          (.str ("15/01/2025".data)) CellVal.none CellVal.none 5000).Category
            = Json.str c ∧ c ∈ taxonomy15) ∧
      ((mkTxRecord ("AED".data) ("2025-06-01".data) 0 (.str ("15/01/2025".data))
          CellVal.none CellVal.none 5000).Description ≠ [] →
        (mkTxRecord ("AED".data) ("2025-06-01".data) 0 (.str ("15/01/2025".data))
          CellVal.none CellVal.none 5000).MerchantName ≠ [])) ∧
    List.Forall₂ sameCore [txOther]
      (aiCategorizeTransactions true [txOther] [Except.error ()]) := by
  constructor
  · apply c2_amended.1 wsC8 ("AED".data) ("2025-06-01".data)
    rw [show processSheet wsC8 ("AED".data) ("2025-06-01".data)
        = [mkTxRecord ("AED".data) ("2025-06-01".data) 0
            (.str ("15/01/2025".data)) CellVal.none CellVal.none 5000] from rfl]
    exact List.mem_singleton.mpr rfl
  · exact c2_amended.2 true [txOther] [Except.error ()]

/-! ## C9: what the Header Locator records per role -/

/-- Header-keyword hits of a row inside the scan window. -/
def rowHitCount (ws : List (List CellVal)) (r : Nat) : Nat :=
  (colsWindow ws).countP (fun c => (roleOfCell (cellLow ws r c)).isSome)

/-- The last (highest-index) column of the list whose cell carries role `ρ`. -/
def lastMatch (ws : List (List CellVal)) (r : Nat) (ρ : Role) :
    List Nat → Option Nat
  | [] => Option.none
  | c :: rest =>
    match lastMatch ws r ρ rest with
    | some x => some x
    | Option.none =>
      if roleOfCell (cellLow ws r c) = some ρ then some c else Option.none

/-- Uniform access to the role columns of a `row_data` map. -/
def rdField (rd : RowData) : Role → Option Nat
  | .dateR => rd.date_col
  | .descR => rd.description_col
  | .typeR => rd.type_col
  | .refR => rd.reference_col
  | .debitR => rd.debit_col
  | .creditR => rd.credit_col
  | .amountR => rd.amount_col
  | .otherR => Option.none

theorem updateRD_field (rd : RowData) (c : Nat) (ρ ρ' : Role)
    (hρ' : ρ' ≠ Role.otherR) :
    rdField (updateRD rd c ρ) ρ' = if ρ = ρ' then some c else rdField rd ρ' := by
  cases ρ <;> cases ρ' <;> simp_all [updateRD, rdField]

theorem updateRD_header_row (rd : RowData) (c : Nat) (ρ : Role) :
    (updateRD rd c ρ).header_row = rd.header_row := by
  cases ρ <;> rfl

theorem or_none (o : Option Nat) : Option.or o Option.none = o := by
  cases o <;> rfl

/-- The column fold of one row: the counter counts keyword hits, and each
role field holds the LAST matching column (later columns overwrite), falling
back to the accumulator's value. -/
theorem scanFold_spec (ws : List (List CellVal)) (r : Nat) :
    ∀ (cols : List Nat) (cnt0 : Nat) (rd0 : RowData),
    (cols.foldl (scanStep ws r) (cnt0, rd0)).1
        = cnt0 + cols.countP (fun c => (roleOfCell (cellLow ws r c)).isSome) ∧
    (∀ ρ : Role, ρ ≠ Role.otherR →
      rdField (cols.foldl (scanStep ws r) (cnt0, rd0)).2 ρ
        = Option.or (lastMatch ws r ρ cols) (rdField rd0 ρ)) ∧
    (cols.foldl (scanStep ws r) (cnt0, rd0)).2.header_row = rd0.header_row := by
  intro cols
  induction cols with
  | nil =>
    intro cnt0 rd0
    refine ⟨by simp, fun ρ _ => ?_, rfl⟩
    simp [lastMatch, Option.or]
  | cons c rest ih =>
    intro cnt0 rd0
    rw [List.foldl_cons]
    cases hrole : roleOfCell (cellLow ws r c) with
    | none =>
      have hstep : scanStep ws r (cnt0, rd0) c = (cnt0, rd0) := by
        unfold scanStep
        rw [hrole]
      rw [hstep]
      obtain ⟨h1, h2, h3⟩ := ih cnt0 rd0
      refine ⟨?_, ?_, h3⟩
      · rw [h1, List.countP_cons]
        simp [hrole]
      · intro ρ hρ
        rw [h2 ρ hρ]
        have hlm : lastMatch ws r ρ (c :: rest) = lastMatch ws r ρ rest := by
          cases hx : lastMatch ws r ρ rest with
          | some x => simp [lastMatch, hx]
          | none => simp [lastMatch, hx, hrole]
        rw [hlm]
    | some ρ0 =>
      have hstep : scanStep ws r (cnt0, rd0) c = (cnt0 + 1, updateRD rd0 c ρ0) := by
        unfold scanStep
        rw [hrole]
      rw [hstep]
      obtain ⟨h1, h2, h3⟩ := ih (cnt0 + 1) (updateRD rd0 c ρ0)
      refine ⟨?_, ?_, ?_⟩
      · rw [h1, List.countP_cons]
        simp [hrole]
        omega
      · intro ρ hρ
        rw [h2 ρ hρ, updateRD_field rd0 c ρ0 ρ hρ]
        cases hlm : lastMatch ws r ρ rest with
        | some x => simp [lastMatch, hlm, Option.or]
        | none =>
          simp only [lastMatch, hlm, hrole, Option.some.injEq]
          split
          · simp [Option.or]
          · simp [Option.or]
      · rw [h3, updateRD_header_row]

/-- `findRowLoop` returns the first row of the list reaching three hits,
together with that row's scan. -/
theorem findRowLoop_spec (ws : List (List CellVal)) :
    ∀ (rows : List Nat) (r : Nat) (rd : RowData),
    findRowLoop ws rows = some (r, rd) →
    3 ≤ (scanRowRD ws r).1 ∧ rd = (scanRowRD ws r).2 ∧
      ∃ l1 l2, rows = l1 ++ r :: l2 ∧ ∀ rr ∈ l1, (scanRowRD ws rr).1 < 3 := by
  intro rows
  induction rows with
  | nil => intro r rd h; exact absurd h (by simp [findRowLoop])
  | cons r0 rest ih =>
    intro r rd h
    unfold findRowLoop at h
    split at h
    · rename_i hge
      injection h with h
      cases h
      exact ⟨hge, rfl, [], rest, rfl, by intro rr hrr; cases hrr⟩
    · rename_i hlt
      obtain ⟨hge, hrd, l1, l2, heq, hall⟩ := ih r rd h
      refine ⟨hge, hrd, r0 :: l1, l2, by rw [heq]; rfl, ?_⟩
      intro rr hrr
      rcases List.mem_cons.mp hrr with hrr | hrr
      · subst hrr
        omega
      · exact hall rr hrr

/-- C9 (amended): the Header Locator returns the first scanned row reaching
at least three header-keyword hits with its role→column map, but for each
semantic role the recorded column is the LAST (highest-index) scanned column
of that row whose cell matches that role (later matches overwrite earlier
ones), with per-cell role precedence date > description > type > reference >
debit > credit > amount. -/
theorem c9_amended_last_column (ws : List (List CellVal)) (r : Nat)
    (rd : RowData) (h : findRowLoop ws (rowWindow ws) = some (r, rd)) :
    3 ≤ rowHitCount ws r ∧
    (∃ l1 l2, rowWindow ws = l1 ++ r :: l2 ∧ ∀ rr ∈ l1, rowHitCount ws rr < 3) ∧
    findDataHeaders ws = { rd with header_row := some r } ∧
    rd.date_col = lastMatch ws r Role.dateR (colsWindow ws) ∧
    rd.description_col = lastMatch ws r Role.descR (colsWindow ws) ∧
    rd.type_col = lastMatch ws r Role.typeR (colsWindow ws) ∧
    rd.reference_col = lastMatch ws r Role.refR (colsWindow ws) ∧
    rd.debit_col = lastMatch ws r Role.debitR (colsWindow ws) ∧
    rd.credit_col = lastMatch ws r Role.creditR (colsWindow ws) ∧
    rd.amount_col = lastMatch ws r Role.amountR (colsWindow ws) := by
  have hcountAll : ∀ rr, (scanRowRD ws rr).1 = rowHitCount ws rr := by
    intro rr
    have h1 := (scanFold_spec ws rr (colsWindow ws) 0 {}).1
    unfold scanRowRD rowHitCount
    rw [h1]
    omega
  obtain ⟨hge, hrd, l1, l2, heq, hall⟩ := findRowLoop_spec ws (rowWindow ws) r rd h
  have hfields : ∀ ρ : Role, ρ ≠ Role.otherR →
      rdField rd ρ = lastMatch ws r ρ (colsWindow ws) := by
    intro ρ hρ
    rw [hrd]
    have h2 := (scanFold_spec ws r (colsWindow ws) 0 {}).2.1 ρ hρ
    unfold scanRowRD
    rw [h2]
    have : rdField ({} : RowData) ρ = Option.none := by
      cases ρ <;> rfl
    rw [this, or_none]
  refine ⟨by rw [← hcountAll]; exact hge,
    ⟨l1, l2, heq, fun rr hrr => by rw [← hcountAll]; exact hall rr hrr⟩, ?_,
    hfields Role.dateR (by decide), hfields Role.descR (by decide),
    hfields Role.typeR (by decide), hfields Role.refR (by decide),
    hfields Role.debitR (by decide), hfields Role.creditR (by decide),
    hfields Role.amountR (by decide)⟩
  unfold findDataHeaders
  rw [h]

/-- The header map scanned from `wsC9`'s first row. -/
def rd9 : RowData := { date_col := some 2, description_col := some 3 }

/-- C9 witness: on `wsC9` the located header row is row 1 and the recorded
date column is the last matching one. -/
theorem c9_witness :
    3 ≤ rowHitCount wsC9 1 ∧
    rd9.date_col = lastMatch wsC9 1 Role.dateR (colsWindow wsC9) ∧
    findDataHeaders wsC9 = { rd9 with header_row := some 1 } :=
  ⟨(c9_amended_last_column wsC9 1 rd9 rfl).1,
   (c9_amended_last_column wsC9 1 rd9 rfl).2.2.2.1,
   (c9_amended_last_column wsC9 1 rd9 rfl).2.2.1⟩
